import Mathlib

/-!
MPR121 forwarder: embedding of `src/mpr121_forwarder.cpp`.

Bytes and machine integers are natural numbers / integers with explicit
reduction modulo `2^w` at every narrowing conversion of the C++ source.
The host is little-endian (the object representation copied by `memcpy`
is the little-endian byte sequence of the value).
System calls are modelled by explicit outcome parameters (what the call
returned) and by a trace of the operations that were issued.
-/

namespace MPR121Forwarder

/-! ## Constants of the source -/

/-- Source constant `#define DPOINT_BINARY_MSG_CHAR '>'`. -/
def DPOINT_BINARY_MSG_CHAR : Nat := 0x3E

/-- Source constant `#define DPOINT_BINARY_FIXED_LENGTH 128`. -/
def DPOINT_BINARY_FIXED_LENGTH : Nat := 128

/-- Source constant `#define DEFAULT_TIMER_INTERVAL_MS 20`. -/
def DEFAULT_TIMER_INTERVAL_MS : Int := 20

/-- Source constant `#define NSENSORS 6`. -/
def NSENSORS : Nat := 6

/-- Source constant `#define MPR121_TOUCHSTATUS_L 0x00`. -/
def MPR121_TOUCHSTATUS_L : Nat := 0x00

/-- Source constant `#define MPR121_TOUCHSTATUS_H 0x01`. -/
def MPR121_TOUCHSTATUS_H : Nat := 0x01

/-- Source constant `#define MPR121_FILTDATA_0L 0x04`. -/
def MPR121_FILTDATA_0L : Nat := 0x04

/-- Source constant `#define MPR121_ECR 0x5E`. -/
def MPR121_ECR : Nat := 0x5E

/-- Ordinal of `DSERV_SHORT` in `ds_datatype_t`. -/
def DSERV_SHORT : Int := 4

/-- Linux value of `EPIPE` (from `errno.h`). -/
def EPIPE : Nat := 32

/-- Linux value of `ECONNRESET` (from `errno.h`). -/
def ECONNRESET : Nat := 104

/-- Linux value of `ENOTCONN` (from `errno.h`). -/
def ENOTCONN : Nat := 107

/-- Linux value of `EAGAIN` (from `errno.h`); `EWOULDBLOCK` has the same value. -/
def EAGAIN : Nat := 11

/-- Linux value of `EWOULDBLOCK` (from `errno.h`). -/
def EWOULDBLOCK : Nat := 11

/-! ## Byte-level helpers -/

/-- Object representation of an unsigned integer of `w` bytes on a
little-endian host: least significant byte first. -/
def leBytes : Nat → Nat → List Nat
  | 0, _ => []
  | w + 1, x => (x % 256) :: leBytes w (x / 256)

/-- Value of a little-endian byte sequence. -/
def leValue : List Nat → Nat
  | [] => 0
  | b :: bs => b + 256 * leValue bs

/-- Library function `strlen`: number of bytes before the first NUL of a C string.  The list
is the memory the pointer designates; its end stands for the terminator. -/
def strlen (s : List Nat) : Nat := (s.takeWhile (fun b => b != 0)).length

/-- Library call `memcpy(&buf[idx], src, n)` on a buffer of fixed size: the first `n` bytes
of `src` replace the bytes of `buf` from offset `idx` on.  This is the call's
meaning when the copy stays inside the buffer and the source (`copyInBounds`).
A copy that leaves them is undefined in the source (it overruns the buffer);
the list then only keeps its size, and nothing is concluded from it. -/
def memcpy (buf : List Nat) (idx : Nat) (src : List Nat) (n : Nat) : List Nat :=
  (buf.take idx ++ src.take n ++ buf.drop (idx + (src.take n).length)).take buf.length

/-- Bytes `off .. off + n - 1` of a frame. -/
def slice (l : List Nat) (off n : Nat) : List Nat := (l.drop off).take n

/-- Whether `memcpy(&buf[idx], src, n)` stays inside the destination buffer and
reads no more than the source holds. -/
def copyInBounds (buf : List Nat) (idx : Nat) (src : List Nat) (n : Nat) : Bool :=
  decide (idx + n ≤ buf.length) && decide (n ≤ src.length)

/-! ## Telemetry link (`class DataserverClient`) -/

/-- Socket operations issued by the client, in program order. -/
inductive SockOp where
  | send (fd : Int) (bytes : List Nat)
  | recvPeek (fd : Int)
  | close (fd : Int)
  deriving DecidableEq, Repr

/-- What `send` returned: a byte count, or `-1` with `errno`. -/
inductive SendResult where
  | ok (n : Nat)
  | err (errno : Nat)
  deriving DecidableEq, Repr

/-- What `recv(..., MSG_PEEK | MSG_DONTWAIT)` returned: a positive byte count,
`0` (end of stream), or `-1` with `errno`. -/
inductive RecvResult where
  | data (n : Nat)
  | eof
  | err (errno : Nat)
  deriving DecidableEq, Repr

/-- Data members of `DataserverClient`. -/
structure DataserverClient where
  sockfd : Int
  server_address : String
  server_port : Int
  connected : Bool
  should_reconnect : Bool
  deriving DecidableEq, Repr

/-- Constructor `DataserverClient(addr, port)`. -/
def DataserverClient.new (addr : String) (port : Int) : DataserverClient :=
  { sockfd := -1, server_address := addr, server_port := port,
    connected := false, should_reconnect := true }

/-- Method `DataserverClient::disconnect`. -/
def disconnect (c : DataserverClient) : DataserverClient × List SockOp :=
  if 0 ≤ c.sockfd then
    ({ c with sockfd := -1, connected := false }, [SockOp.close c.sockfd])
  else
    ({ c with connected := false }, [])

/-- Method `DataserverClient::isConnected`. -/
def isConnected (c : DataserverClient) : Bool := c.connected

/-- Result of one `writeToDataserver` call: the returned flag, the client
afterwards, the static scratch buffer afterwards, and the socket operations. -/
structure WriteResult where
  ret : Bool
  client : DataserverClient
  buf : List Nat
  ops : List SockOp
  deriving DecidableEq, Repr

/-- The value of `uint16_t varlen = strlen(varname)`. -/
def varlenOf (varname : List Nat) : Nat := strlen varname % 65536

/-- The value of `uint16_t total_bytes`: the sum is formed in `size_t` and
narrowed to 16 bits. -/
def total_bytes (varname : List Nat) (len : Int) : Nat :=
  (((1 + 2 + (varlenOf varname : Int) + 8 + 4 + 4 + len) % 65536)).toNat

/-- The packing part of `writeToDataserver` (lines 323-342): the scratch buffer
after the seven `memcpy` calls.  `bufidx` is a `uint16_t`. -/
def packFrame (buf : List Nat) (varname : List Nat) (timestamp : Nat) (dtype len : Int)
    (data : List Nat) : List Nat :=
  let cmd := DPOINT_BINARY_MSG_CHAR
  let varlen := varlenOf varname
  let datatype := (dtype % 4294967296).toNat
  let datalen := (len % 4294967296).toNat
  let bufidx := 0
  let buf := memcpy buf bufidx [cmd] 1
  let bufidx := (bufidx + 1) % 65536
  let buf := memcpy buf bufidx (leBytes 2 varlen) 2
  let bufidx := (bufidx + 2) % 65536
  let buf := memcpy buf bufidx varname varlen
  let bufidx := (bufidx + varlen) % 65536
  let buf := memcpy buf bufidx (leBytes 8 timestamp) 8
  let bufidx := (bufidx + 8) % 65536
  let buf := memcpy buf bufidx (leBytes 4 datatype) 4
  let bufidx := (bufidx + 4) % 65536
  let buf := memcpy buf bufidx (leBytes 4 datalen) 4
  let bufidx := (bufidx + 4) % 65536
  memcpy buf bufidx data datalen

/-- Whether each of the seven `memcpy` calls of lines 323-342 stays in bounds,
with the same offsets and lengths as `packFrame`.  The name is copied from a C
string, whose terminator follows the `strlen` bytes. -/
def packInBounds (buf : List Nat) (varname : List Nat) (timestamp : Nat) (dtype len : Int)
    (data : List Nat) : Bool :=
  let cmd := DPOINT_BINARY_MSG_CHAR
  let varlen := varlenOf varname
  let datatype := (dtype % 4294967296).toNat
  let datalen := (len % 4294967296).toNat
  let bufidx := 0
  let ok := copyInBounds buf bufidx [cmd] 1
  let bufidx := (bufidx + 1) % 65536
  let ok := ok && copyInBounds buf bufidx (leBytes 2 varlen) 2
  let bufidx := (bufidx + 2) % 65536
  let ok := ok && copyInBounds buf bufidx varname varlen
  let bufidx := (bufidx + varlen) % 65536
  let ok := ok && copyInBounds buf bufidx (leBytes 8 timestamp) 8
  let bufidx := (bufidx + 8) % 65536
  let ok := ok && copyInBounds buf bufidx (leBytes 4 datatype) 4
  let bufidx := (bufidx + 4) % 65536
  let ok := ok && copyInBounds buf bufidx (leBytes 4 datalen) 4
  let bufidx := (bufidx + 4) % 65536
  ok && copyInBounds buf bufidx data datalen

/-- Method `DataserverClient::writeToDataserver(varname, dtype, len, data)`.
`buf` is the function-static scratch buffer, `now` the clock reading in
microseconds and `sr` what `send` returns if it is called. -/
def writeToDataserver (c : DataserverClient) (buf : List Nat) (varname : List Nat)
    (dtype len : Int) (data : List Nat) (now : Nat) (sr : SendResult) : WriteResult :=
  if !c.connected then
    ⟨false, c, buf, []⟩
  else
    let timestamp := now % 18446744073709551616
    if total_bytes varname len > DPOINT_BINARY_FIXED_LENGTH then
      ⟨false, c, buf, []⟩
    else
      let buf := packFrame buf varname timestamp dtype len data
      let sent := SockOp.send c.sockfd (buf.take DPOINT_BINARY_FIXED_LENGTH)
      match sr with
      | SendResult.err e =>
          if e = EPIPE ∨ e = ECONNRESET ∨ e = ENOTCONN then
            let d := disconnect { c with connected := false }
            ⟨false, d.1, buf, sent :: d.2⟩
          else
            ⟨false, c, buf, [sent]⟩
      | SendResult.ok _ => ⟨true, c, buf, [sent]⟩

/-- The frames handed to `send`, in order. -/
def sentFrames : List SockOp → List (List Nat)
  | [] => []
  | SockOp.send _ bytes :: rest => bytes :: sentFrames rest
  | _ :: rest => sentFrames rest

/-- Method `DataserverClient::testConnection`; `rr` is what the peeking `recv`
returns if it is called. -/
def testConnection (c : DataserverClient) (rr : RecvResult) :
    Bool × DataserverClient × List SockOp :=
  if !c.connected || decide (c.sockfd < 0) then
    (false, c, [])
  else
    match rr with
    | RecvResult.eof =>
        let d := disconnect { c with connected := false }
        (false, d.1, SockOp.recvPeek c.sockfd :: d.2)
    | RecvResult.err e =>
        if e = EAGAIN ∨ e = EWOULDBLOCK then
          (true, c, [SockOp.recvPeek c.sockfd])
        else
          let d := disconnect { c with connected := false }
          (false, d.1, SockOp.recvPeek c.sockfd :: d.2)
    | RecvResult.data _ => (true, c, [SockOp.recvPeek c.sockfd])

/-! ## Touch controller driver (`class MPR121`) -/

/-- Operations of the driver on the I2C character device and the sleeps
between them, in program order. -/
inductive BusOp where
  | openDev (path : String)
  | ioctlSlave (fd : Int) (addr : Nat)
  | write (fd : Int) (bytes : List Nat)
  | read (fd : Int) (n : Nat)
  | close (fd : Int)
  | sleepMs (ms : Nat)
  deriving DecidableEq, Repr

/-- Diagnostics the driver prints on `std::cerr`. -/
inductive Diag where
  | openFailed
  | slaveFailed
  | writeFailed (reg : Nat)
  | addrWriteFailed
  | readFailed
  deriving DecidableEq, Repr

/-- What the operating system answers: the return values of `open` and
`ioctl`, of the `k`-th `write` and of the `k`-th `read` on the descriptor
(with the bytes the read delivers). -/
structure I2cEnv where
  openRet : Int
  ioctlRet : Int
  writeRet : Nat → Int
  readRet : Nat → Int × List Nat

/-- Progress of the driver on the bus: how many `write` and `read` calls were
made, the operations issued and the diagnostics printed. -/
structure I2c where
  nwrites : Nat
  nreads : Nat
  trace : List BusOp
  diags : List Diag
  deriving DecidableEq, Repr

/-- Data members of `MPR121`. -/
structure MPR121 where
  i2c_fd : Int
  i2c_addr : Nat
  deriving DecidableEq, Repr

/-- Constructor `MPR121(addr)`. -/
def MPR121.new (addr : Nat) : MPR121 := { i2c_fd := -1, i2c_addr := addr % 256 }

/-- Library call `std::this_thread::sleep_for(std::chrono::milliseconds(ms))`. -/
def sleep_for (bus : I2c) (ms : Nat) : I2c :=
  { bus with trace := bus.trace ++ [BusOp.sleepMs ms] }

/-- Method `MPR121::writeRegister(reg, value)`: a two-byte write whose failure is
only printed. -/
def writeRegister (env : I2cEnv) (dev : MPR121) (bus : I2c) (reg value : Nat) : I2c :=
  let buffer := [reg % 256, value % 256]
  let ret := env.writeRet bus.nwrites
  { nwrites := bus.nwrites + 1
    nreads := bus.nreads
    trace := bus.trace ++ [BusOp.write dev.i2c_fd buffer]
    diags := if ret ≠ 2 then bus.diags ++ [Diag.writeFailed (reg % 256)] else bus.diags }

/-- Method `MPR121::readRegister8(reg)`. -/
def readRegister8 (env : I2cEnv) (dev : MPR121) (bus : I2c) (reg : Nat) : Nat × I2c :=
  let wret := env.writeRet bus.nwrites
  let bus1 : I2c := { bus with nwrites := bus.nwrites + 1
                               trace := bus.trace ++ [BusOp.write dev.i2c_fd [reg % 256]] }
  if wret ≠ 1 then
    (0, { bus1 with diags := bus1.diags ++ [Diag.addrWriteFailed] })
  else
    let r := env.readRet bus1.nreads
    let bus2 : I2c := { bus1 with nreads := bus1.nreads + 1
                                  trace := bus1.trace ++ [BusOp.read dev.i2c_fd 1] }
    if r.1 ≠ 1 then
      (0, { bus2 with diags := bus2.diags ++ [Diag.readFailed] })
    else
      (r.2.headD 0 % 256, bus2)

/-- Body of the threshold loop of `begin` for one value of `i`. -/
def thresholdStep (env : I2cEnv) (dev : MPR121) (bus : I2c) (i : Nat) : I2c :=
  let bus := writeRegister env dev bus (0x41 + i * 2) 12
  writeRegister env dev bus (0x42 + i * 2) 6

/-- Result of `begin`: the returned flag, the driver and the bus afterwards. -/
structure BeginResult where
  ret : Bool
  dev : MPR121
  bus : I2c

/-- Method `MPR121::begin(i2c_device)`. -/
def MPR121.begin (env : I2cEnv) (dev : MPR121) (bus : I2c) (i2c_device : String) :
    BeginResult :=
  let dev := { dev with i2c_fd := env.openRet }
  let bus := { bus with trace := bus.trace ++ [BusOp.openDev i2c_device] }
  if dev.i2c_fd < 0 then
    ⟨false, dev, { bus with diags := bus.diags ++ [Diag.openFailed] }⟩
  else
    let bus := { bus with trace := bus.trace ++ [BusOp.ioctlSlave dev.i2c_fd dev.i2c_addr] }
    if env.ioctlRet < 0 then
      ⟨false, { dev with i2c_fd := -1 },
        { bus with trace := bus.trace ++ [BusOp.close dev.i2c_fd]
                   diags := bus.diags ++ [Diag.slaveFailed] }⟩
    else
      let bus := writeRegister env dev bus 0x5E 0x00
      let bus := sleep_for bus 10
      let bus := (List.range 6).foldl (thresholdStep env dev) bus
      let bus := writeRegister env dev bus 0x5E 0x06
      let bus := sleep_for bus 100
      let r := readRegister8 env dev bus 0x5E
      ⟨true, dev, r.2⟩

/-- The sensor initialisation of `main` (lines 470-481): the exit code when
`main` returns there, `none` when it goes on to the timer set-up (which has
its own error exits, lines 487-503). -/
def initSensors (env0 env1 : I2cEnv) (cap0 cap1 : MPR121) (bus0 bus1 : I2c) : Option Int :=
  if !(MPR121.begin env0 cap0 bus0 "/dev/i2c-1").ret then some 1
  else if !(MPR121.begin env1 cap1 bus1 "/dev/i2c-1").ret then some 1
  else none

/-- The register writes and sleeps of a bus trace: two-byte writes
`{reg, value}` and sleeps, without descriptor. -/
def regWritesAndSleeps : List BusOp → List (Nat × Nat ⊕ Nat)
  | [] => []
  | BusOp.write _ [reg, value] :: rest => Sum.inl (reg, value) :: regWritesAndSleeps rest
  | BusOp.sleepMs ms :: rest => Sum.inr ms :: regWritesAndSleeps rest
  | _ :: rest => regWritesAndSleeps rest

/-- The initialisation protocol as the specification lists it: ECR halt,
10 ms, the six threshold pairs in increasing order, ECR enable, 100 ms. -/
def initProtocol : List (Nat × Nat ⊕ Nat) :=
  [Sum.inl (0x5E, 0x00), Sum.inr 10] ++
  (List.range 6).flatMap (fun k => [Sum.inl (0x41 + 2 * k, 12), Sum.inl (0x42 + 2 * k, 6)]) ++
  [Sum.inl (0x5E, 0x06), Sum.inr 100]

/-! ## Periodic timer (lines 440-446 and 493-503 of `main`) -/

/-- Source type `struct timespec`. -/
structure timespec where
  tv_sec : Int
  tv_nsec : Int
  deriving DecidableEq, Repr

/-- Source type `struct itimerspec`. -/
structure itimerspec where
  it_interval : timespec
  it_value : timespec
  deriving DecidableEq, Repr

/-- Value of a 32-bit `int` expression whose mathematical result is `x`
(two-complement wrap-around). -/
def wrapInt32 (x : Int) : Int := (x + 2147483648) % 4294967296 - 2147483648

/-- The check of the `-t` argument: `v` is what `atoi` returned; `none` is
the error exit. -/
def parseTimerInterval (v : Int) : Option Int :=
  if v ≤ 0 ∨ v > 10000 then none else some v

/-- The `timer_spec` handed to `timerfd_settime`.  The product is formed in
`int`. -/
def makeTimerSpec (timer_interval_ms : Int) : itimerspec :=
  { it_value := { tv_sec := 0, tv_nsec := wrapInt32 (timer_interval_ms * 1000000) }
    it_interval := { tv_sec := 0, tv_nsec := wrapInt32 (timer_interval_ms * 1000000) } }

/-- A time specification the kernel accepts. -/
def timespec.wellFormed (t : timespec) : Prop :=
  0 ≤ t.tv_sec ∧ 0 ≤ t.tv_nsec ∧ t.tv_nsec < 1000000000

instance (t : timespec) : Decidable t.wellFormed := by
  unfold timespec.wellFormed; infer_instance

/-- Duration a time specification denotes, in nanoseconds. -/
def timespec.nanos (t : timespec) : Int := t.tv_sec * 1000000000 + t.tv_nsec

/-! ## Sampling loop (lines 505-564 of `main`) -/

/-- Bytes of a C string literal. -/
def cstr (s : String) : List Nat := s.toList.map Char.toNat

/-- Channel name `sensor0_touched_point`. -/
def sensor0_touched_point : List Nat := cstr "grasp/sensor0/touched"

/-- Channel name `sensor0_vals_point`. -/
def sensor0_vals_point : List Nat := cstr "grasp/sensor0/vals"

/-- Channel name `sensor1_touched_point`. -/
def sensor1_touched_point : List Nat := cstr "grasp/sensor1/touched"

/-- Channel name `sensor1_vals_point`. -/
def sensor1_vals_point : List Nat := cstr "grasp/sensor1/vals"

/-- What one loop iteration observes: the values the driver calls return
(`touched()`, `filteredData(i)`), what each `recv` of the three possible
probes and each `send` of the four possible publishes returns, and the clock
reading at each publish. -/
structure CycleInput where
  touched0 : Nat
  touched1 : Nat
  filtered0 : Nat → Nat
  filtered1 : Nat → Nat
  probeT0 : RecvResult
  probeT1 : RecvResult
  probeV : RecvResult
  sendT0 : SendResult
  sendT1 : SendResult
  sendV0 : SendResult
  sendV1 : SendResult
  nowT0 : Nat
  nowT1 : Nat
  nowV0 : Nat
  nowV1 : Nat

/-- Events of the loop: a call of `writeToDataserver` with its arguments (the
bytes `data` points to, `len` of them), and the socket operations. -/
inductive Event where
  | publish (varname : List Nat) (dtype len : Int) (data : List Nat)
  | sock (op : SockOp)
  deriving DecidableEq, Repr

/-- The link as the loop sees it: the client and the scratch buffer of
`writeToDataserver`. -/
structure Link where
  client : DataserverClient
  buf : List Nat
  deriving DecidableEq, Repr

/-- Variables that live across loop iterations. -/
structure LoopState where
  link : Link
  last_touched0 : Nat
  last_touched1 : Nat
  deriving DecidableEq, Repr

/-- A call `client.writeToDataserver(varname, dtype, len, data)` from the loop
(the returned flag is ignored there). -/
def publish (l : Link) (varname : List Nat) (dtype len : Int) (data : List Nat)
    (now : Nat) (sr : SendResult) : Link × List Event :=
  let r := writeToDataserver l.client l.buf varname dtype len data now sr
  (⟨r.client, r.buf⟩, Event.publish varname dtype len data :: r.ops.map Event.sock)

/-- The block `if (curr != last) { if (isConnected() && testConnection())
writeToDataserver(point, DSERV_SHORT, sizeof(uint16_t), &curr); last = curr; }`
(lines 529-535, and 538-544 for the second controller).  Returns the link, the
new value of `last` and the events. -/
def touchedStep (l : Link) (point : List Nat) (curr last : Nat) (rr : RecvResult)
    (now : Nat) (sr : SendResult) : Link × Nat × List Event :=
  if curr ≠ last then
    if isConnected l.client then
      let t := testConnection l.client rr
      let l1 : Link := ⟨t.2.1, l.buf⟩
      if t.1 then
        let p := publish l1 point DSERV_SHORT 2 (leBytes 2 curr) now sr
        (p.1, curr, t.2.2.map Event.sock ++ p.2)
      else
        (l1, curr, t.2.2.map Event.sock)
    else
      (l, curr, [])
  else
    (l, last, [])

/-- The array `filtered_data` after `for (i < NSENSORS) filtered_data[i] =
cap.filteredData(i)`, as the bytes `writeToDataserver` copies. -/
def filteredBytes (filtered : Nat → Nat) : List Nat :=
  (List.range NSENSORS).flatMap (fun i => leBytes 2 (filtered i % 65536))

/-- One iteration of the `while (running.load())` loop in which the timer read
returned (lines 527-563). -/
def samplingCycle (s : LoopState) (i : CycleInput) : LoopState × List Event :=
  let curr_touched0 := i.touched0 % 65536
  let a := touchedStep s.link sensor0_touched_point curr_touched0 s.last_touched0
    i.probeT0 i.nowT0 i.sendT0
  let curr_touched1 := i.touched1 % 65536
  let b := touchedStep a.1 sensor1_touched_point curr_touched1 s.last_touched1
    i.probeT1 i.nowT1 i.sendT1
  let t := testConnection b.1.client i.probeV
  let l : Link := ⟨t.2.1, b.1.buf⟩
  let evs := a.2.2 ++ b.2.2 ++ t.2.2.map Event.sock
  if t.1 then
    let p0 := publish l sensor0_vals_point DSERV_SHORT (NSENSORS * 2)
      (filteredBytes i.filtered0) i.nowV0 i.sendV0
    let p1 := publish p0.1 sensor1_vals_point DSERV_SHORT (NSENSORS * 2)
      (filteredBytes i.filtered1) i.nowV1 i.sendV1
    (⟨p1.1, a.2.1, b.2.1⟩, evs ++ p0.2 ++ p1.2)
  else
    (⟨l, a.2.1, b.2.1⟩, evs)

/-- The loop over the iterations whose timer read returned, in order. -/
def runCycles : LoopState → List CycleInput → LoopState × List Event
  | s, [] => (s, [])
  | s, i :: rest =>
      let r := samplingCycle s i
      let q := runCycles r.1 rest
      (q.1, r.2 ++ q.2)

/-- The loop variables when the loop is entered (lines 506-507), for a given
link. -/
def LoopState.initial (l : Link) : LoopState :=
  { link := l, last_touched0 := 0, last_touched1 := 0 }

/-- The calls of `writeToDataserver` in a list of events, in order. -/
def publishCalls : List Event → List (List Nat × Int × Int × List Nat)
  | [] => []
  | Event.publish v t n d :: rest => (v, t, n, d) :: publishCalls rest
  | Event.sock _ :: rest => publishCalls rest

/-- The publish calls under a given channel name. -/
def publishCallsOf (point : List Nat) (evs : List Event) :
    List (List Nat × Int × Int × List Nat) :=
  (publishCalls evs).filter (fun c => decide (c.1 = point))

/-! ## The inverse parser and sample values -/

/-- The inverse parser of the wire format, following the frame table of the
specification (the collector that runs it is not part of this repository):
marker `0x3E`, 16-bit `name_len`, the name, the 8-byte timestamp, the 32-bit
type tag, the 32-bit `payload_len`, the payload; all integers little-endian.
Returns name, timestamp, type tag and payload. -/
def parseFrame (frame : List Nat) : Option (List Nat × Nat × Nat × List Nat) :=
  if slice frame 0 1 ≠ [0x3E] then none
  else
    let name_len := leValue (slice frame 1 2)
    let name := slice frame 3 name_len
    let timestamp := leValue (slice frame (3 + name_len) 8)
    let datatype := leValue (slice frame (11 + name_len) 4)
    let payload_len := leValue (slice frame (15 + name_len) 4)
    if frame.length < 19 + name_len + payload_len then none
    else some (name, timestamp, datatype, slice frame (19 + name_len) payload_len)

/-- A connected client on descriptor 3. -/
def sampleClient : DataserverClient :=
  { sockfd := 3, server_address := "192.168.88.40", server_port := 4620,
    connected := true, should_reconnect := true }

/-- The scratch buffer before its first use: static storage is zeroed. -/
def zeroBuf : List Nat := List.replicate 128 0

/-- An operating system on which the bus opens and the address binds but
every `write` and `read` on the descriptor fails (no chip answers). -/
def absentChipEnv : I2cEnv :=
  { openRet := 4, ioctlRet := 0, writeRet := fun _ => -1, readRet := fun _ => (-1, []) }

/-- An operating system on which every call of `begin` on a fresh bus succeeds
(fourteen register writes, then the address write of the read-back); reads
deliver zeros. -/
def healthyEnv : I2cEnv :=
  { openRet := 4, ioctlRet := 0
    writeRet := fun k => if k < 14 then 2 else 1
    readRet := fun _ => (1, [0]) }

/-- The bus before the driver has used it. -/
def freshBus : I2c := { nwrites := 0, nreads := 0, trace := [], diags := [] }

/-! ## Conditions on a sampling cycle -/

/-- Link state Connected: the connection flag is set and the handle is open. -/
def DataserverClient.up (c : DataserverClient) : Bool :=
  c.connected && decide (0 ≤ c.sockfd)

/-- The peek finds the link alive: data is pending, or the call would block. -/
def RecvResult.alive : RecvResult → Bool
  | RecvResult.data _ => true
  | RecvResult.eof => false
  | RecvResult.err e => decide (e = EAGAIN ∨ e = EWOULDBLOCK)

/-- The send does not report a lost connection (it succeeds, or fails with an
error other than EPIPE, ECONNRESET, ENOTCONN). -/
def SendResult.keepsLink : SendResult → Bool
  | SendResult.ok _ => true
  | SendResult.err e => !decide (e = EPIPE ∨ e = ECONNRESET ∨ e = ENOTCONN)

/-- Every probe of the cycle succeeds. -/
def CycleInput.probesSucceed (i : CycleInput) : Bool :=
  i.probeT0.alive && i.probeT1.alive && i.probeV.alive

/-- No send of the cycle loses the connection. -/
def CycleInput.sendsKeepLink (i : CycleInput) : Bool :=
  i.sendT0.keepsLink && i.sendT1.keepsLink && i.sendV0.keepsLink && i.sendV1.keepsLink

/-- The value `touched()` returned for controller 0 (`false`) or 1 (`true`). -/
def touchedOf (second : Bool) (i : CycleInput) : Nat :=
  if second then i.touched1 else i.touched0

/-- The last-sent bitmap of controller 0 (`false`) or 1 (`true`). -/
def lastTouchedOf (second : Bool) (s : LoopState) : Nat :=
  if second then s.last_touched1 else s.last_touched0

/-- The `touched` channel name of controller 0 (`false`) or 1 (`true`). -/
def touchedPointOf (second : Bool) : List Nat :=
  if second then sensor1_touched_point else sensor0_touched_point

/-- A cycle in which both controllers report the bitmap `b`, every filtered
value is `v`, every probe would block and every send succeeds. -/
def steadyCycle (b v : Nat) : CycleInput :=
  { touched0 := b, touched1 := b, filtered0 := fun _ => v, filtered1 := fun _ => v
    probeT0 := RecvResult.err EAGAIN, probeT1 := RecvResult.err EAGAIN
    probeV := RecvResult.err EAGAIN
    sendT0 := SendResult.ok 128, sendT1 := SendResult.ok 128
    sendV0 := SendResult.ok 128, sendV1 := SendResult.ok 128
    nowT0 := 0, nowT1 := 0, nowV0 := 0, nowV1 := 0 }

/-- The cycle of the "happy sample" scenario: controller 0 reports
`touched = 0x0005` and filtered values 100, 200, ..., 600. -/
def happyCycle : CycleInput :=
  { steadyCycle 0 0 with
    touched0 := 0x0005
    filtered0 := fun i => [100, 200, 300, 400, 500, 600].getD i 0 }

/-- The loop state on entry with a connected link. -/
def sampleStart : LoopState := LoopState.initial ⟨sampleClient, zeroBuf⟩

/-! ## Register reads of the driver (`touched`, `filteredData`) -/

/-- Method `MPR121::readRegister16(reg)`: the address write, then a read of
two bytes composed low byte first. -/
def readRegister16 (env : I2cEnv) (dev : MPR121) (bus : I2c) (reg : Nat) : Nat × I2c :=
  let wret := env.writeRet bus.nwrites
  let bus1 : I2c := { bus with nwrites := bus.nwrites + 1
                               trace := bus.trace ++ [BusOp.write dev.i2c_fd [reg % 256]] }
  if wret ≠ 1 then
    (0, { bus1 with diags := bus1.diags ++ [Diag.addrWriteFailed] })
  else
    let r := env.readRet bus1.nreads
    let bus2 : I2c := { bus1 with nreads := bus1.nreads + 1
                                  trace := bus1.trace ++ [BusOp.read dev.i2c_fd 2] }
    if r.1 ≠ 2 then
      (0, { bus2 with diags := bus2.diags ++ [Diag.readFailed] })
    else
      let buffer0 := r.2.getD 0 0 % 256
      let buffer1 := r.2.getD 1 0 % 256
      (((buffer1 <<< 8) ||| buffer0) % 65536, bus2)

/-- Method `MPR121::touched`: `t` is a `uint8_t`, `v` a `uint16_t`, the
result a `uint16_t`. -/
def touched (env : I2cEnv) (dev : MPR121) (bus : I2c) : Nat × I2c :=
  let t := readRegister8 env dev bus MPR121_TOUCHSTATUS_L
  let v := readRegister8 env dev t.2 MPR121_TOUCHSTATUS_H
  (((v.1 <<< 8) ||| t.1) % 65536, v.2)

/-- Method `MPR121::filteredData(t)`; the parameter is a `uint8_t`. -/
def filteredData (env : I2cEnv) (dev : MPR121) (bus : I2c) (t : Nat) : Nat × I2c :=
  let t := t % 256
  if t > 12 then (0, bus)
  else readRegister16 env dev bus (MPR121_FILTDATA_0L + t * 2)

/-- An operating system on which every address write succeeds and every read
of two bytes delivers `0x34 0x12`. -/
def wordEnv : I2cEnv :=
  { openRet := 4, ioctlRet := 0, writeRet := fun _ => 1, readRet := fun _ => (2, [0x34, 0x12]) }

/-! ## Link lifecycle (`connect`) -/

/-- Linux value of `EINPROGRESS` (from `errno.h`). -/
def EINPROGRESS : Nat := 115

/-- What the operating system answers to the calls of `connect`: the
descriptor from `socket`, the flags from `fcntl(F_GETFL)`, whether
`gethostbyname` found the host, the return value and `errno` of `::connect`,
the return value of `select`, and `SO_ERROR`. -/
structure ConnectEnv where
  socketRet : Int
  fcntlFlags : Int
  hostFound : Bool
  connectRet : Int
  connectErrno : Nat
  selectRet : Int
  soError : Int
  deriving DecidableEq, Repr

/-- Network calls issued by `connect`, in program order. -/
inductive NetOp where
  | socket
  | setNoDelay (fd : Int)
  | getFlags (fd : Int)
  | setNonBlocking (fd : Int) (enabled : Bool)
  | resolve (host : String)
  | connect (fd : Int) (host : String) (port : Int)
  | select (fd : Int) (seconds : Nat)
  | getSoError (fd : Int)
  | close (fd : Int)
  deriving DecidableEq, Repr

/-- The tail of `connect` when the connection is established (lines 249-254):
back to blocking mode, set the flag. -/
def connectEstablished (c : DataserverClient) (ops : List NetOp) :
    Bool × DataserverClient × List NetOp :=
  (true, { c with connected := true }, ops ++ [NetOp.setNonBlocking c.sockfd false])

/-- The failure exits of `connect` after the socket exists: close it and
reset the handle. -/
def connectFailed (c : DataserverClient) (ops : List NetOp) :
    Bool × DataserverClient × List NetOp :=
  (false, { c with sockfd := -1 }, ops ++ [NetOp.close c.sockfd])

/-- Method `DataserverClient::connect`. -/
def connect (env : ConnectEnv) (c : DataserverClient) :
    Bool × DataserverClient × List NetOp :=
  if c.connected then
    (true, c, [])
  else
    let c := { c with sockfd := env.socketRet }
    if c.sockfd < 0 then
      (false, c, [NetOp.socket])
    else
      let ops := [NetOp.socket, NetOp.setNoDelay c.sockfd, NetOp.getFlags c.sockfd,
        NetOp.setNonBlocking c.sockfd true, NetOp.resolve c.server_address]
      if !env.hostFound then
        connectFailed c ops
      else
        let ops := ops ++ [NetOp.connect c.sockfd c.server_address (c.server_port % 65536)]
        if env.connectRet < 0 then
          if env.connectErrno = EINPROGRESS then
            let ops := ops ++ [NetOp.select c.sockfd 5]
            if env.selectRet > 0 then
              let ops := ops ++ [NetOp.getSoError c.sockfd]
              if env.soError ≠ 0 then
                connectFailed c ops
              else
                connectEstablished c ops
            else
              connectFailed c ops
          else
            connectFailed c ops
        else
          connectEstablished c ops

/-- Successive calls of `connect`, one per answer of the operating system:
the returned flags, the client afterwards and all network calls. -/
def connectRepeated : DataserverClient → List ConnectEnv →
    List Bool × DataserverClient × List NetOp
  | c, [] => ([], c, [])
  | c, e :: rest =>
      let r := connect e c
      let q := connectRepeated r.2.1 rest
      (r.1 :: q.1, q.2.1, r.2.2 ++ q.2.2)

/-- An operating system on which `connect` succeeds at once on descriptor 5. -/
def reachableEnv : ConnectEnv :=
  { socketRet := 5, fcntlFlags := 2, hostFound := true, connectRet := 0, connectErrno := 0,
    selectRet := 1, soError := 0 }

/-- A driver whose bus is open on descriptor 4, at address 0x5A. -/
def openedSensor : MPR121 := { i2c_fd := 4, i2c_addr := 0x5A }

/-! ## Lemmas on the byte-level helpers -/

theorem leBytes_length (w x : Nat) : (leBytes w x).length = w := by
  induction w generalizing x with
  | zero => rfl
  | succ w ih => simp [leBytes, ih]

theorem strlen_of_no_nul (s : List Nat) (h : ∀ b ∈ s, b ≠ 0) : strlen s = s.length := by
  unfold strlen
  induction s with
  | nil => rfl
  | cons a t ih =>
    have ha : a ≠ 0 := h a (List.mem_cons_self a t)
    have ht : ∀ b ∈ t, b ≠ 0 := fun b hb => h b (List.mem_cons_of_mem a hb)
    have hb : (a != 0) = true := by simp [ha]
    rw [List.takeWhile_cons, hb]
    simp [ih ht]

theorem memcpy_length (buf : List Nat) (idx : Nat) (src : List Nat) (n : Nat) :
    (memcpy buf idx src n).length = buf.length := by
  unfold memcpy
  simp only [List.length_take, List.length_append, List.length_drop]
  omega

theorem memcpy_step (buf pre src : List Nat) (k n : Nat) (hk : k = pre.length)
    (hn : n = src.length) (hfit : pre.length + src.length ≤ buf.length) :
    memcpy (pre ++ buf.drop pre.length) k src n
      = (pre ++ src) ++ buf.drop (pre ++ src).length := by
  subst hk hn
  unfold memcpy
  have h1 : (pre ++ List.drop pre.length buf).length = buf.length := by
    simp only [List.length_append, List.length_drop]; omega
  rw [h1]
  simp only [List.take_length, List.take_left, List.length_append]
  have h2 : List.drop (pre.length + src.length) (pre ++ List.drop pre.length buf)
      = List.drop (pre.length + src.length) buf := by
    rw [List.drop_append, List.drop_drop]
  rw [h2]
  apply List.take_of_length_le
  simp only [List.length_append, List.length_drop]
  omega

/-- In range, the seven `memcpy` calls lay the record out field after field
and leave the rest of the scratch buffer as it was. -/
theorem packFrame_layout (buf varname data : List Nat) (ts : Nat) (dtype len : Int)
    (hbuf : buf.length = 128) (hnul : ∀ b ∈ varname, b ≠ 0)
    (hlen : len = (data.length : Int))
    (hfit : 19 + varname.length + data.length ≤ 128) :
    packFrame buf varname ts dtype len data
      = [0x3E] ++ leBytes 2 varname.length ++ varname ++ leBytes 8 ts
          ++ leBytes 4 (dtype % 4294967296).toNat ++ leBytes 4 data.length ++ data
          ++ buf.drop (19 + varname.length + data.length) := by
  have hv : varlenOf varname = varname.length := by
    unfold varlenOf
    rw [strlen_of_no_nul varname hnul]
    omega
  have hd : (len % 4294967296).toNat = data.length := by
    subst hlen
    omega
  unfold packFrame
  simp only [hv, hd, DPOINT_BINARY_MSG_CHAR]
  have e0 : memcpy buf 0 [62] 1 = [62] ++ buf.drop ([62] : List Nat).length := by
    have h := memcpy_step buf [] [62] 0 1 rfl rfl (by simp; omega)
    simpa using h
  rw [e0]
  rw [memcpy_step buf _ (leBytes 2 varname.length) _ 2 (by simp) (by simp [leBytes_length])
    (by simp [leBytes_length]; omega)]
  rw [memcpy_step buf _ varname _ varname.length (by simp [leBytes_length]) rfl
    (by simp [leBytes_length]; omega)]
  rw [memcpy_step buf _ (leBytes 8 ts) _ 8 (by simp [leBytes_length]; omega)
    (by simp [leBytes_length]) (by simp [leBytes_length]; omega)]
  rw [memcpy_step buf _ (leBytes 4 (dtype % 4294967296).toNat) _ 4
    (by simp [leBytes_length]; omega) (by simp [leBytes_length])
    (by simp [leBytes_length]; omega)]
  rw [memcpy_step buf _ (leBytes 4 data.length) _ 4
    (by simp [leBytes_length]; omega) (by simp [leBytes_length])
    (by simp [leBytes_length]; omega)]
  rw [memcpy_step buf _ data _ data.length
    (by simp [leBytes_length]; omega) rfl
    (by simp [leBytes_length]; omega)]
  congr 1
  congr 1
  simp [leBytes_length]
  omega

theorem leValue_leBytes (w x : Nat) (h : x < 256 ^ w) : leValue (leBytes w x) = x := by
  induction w generalizing x with
  | zero =>
    have : x = 0 := by simpa using h
    simp [leBytes, leValue, this]
  | succ w ih =>
    have hx : x / 256 < 256 ^ w := by
      rw [Nat.div_lt_iff_lt_mul (by norm_num)]
      calc x < 256 ^ (w + 1) := h
        _ = 256 ^ w * 256 := by ring
    simp only [leBytes, leValue, ih (x / 256) hx]
    omega

theorem slice_of_eq (l pre mid post : List Nat) (off n : Nat)
    (hl : l = pre ++ (mid ++ post)) (hoff : off = pre.length) (hn : n = mid.length) :
    slice l off n = mid := by
  subst hoff hn hl
  unfold slice
  rw [List.drop_left, List.take_left]

/-- A call that reaches `send`: the link is connected and the 16-bit total
passes the size check. -/
theorem writeToDataserver_of_fit (c : DataserverClient) (buf varname data : List Nat)
    (dtype len : Int) (now : Nat) (sr : SendResult)
    (hconn : c.connected = true) (htot : total_bytes varname len ≤ 128) :
    writeToDataserver c buf varname dtype len data now sr =
      (match sr with
        | SendResult.err e =>
            if e = EPIPE ∨ e = ECONNRESET ∨ e = ENOTCONN then
              ⟨false, (disconnect { c with connected := false }).1,
                packFrame buf varname (now % 18446744073709551616) dtype len data,
                SockOp.send c.sockfd
                  ((packFrame buf varname (now % 18446744073709551616) dtype len data).take 128)
                  :: (disconnect { c with connected := false }).2⟩
            else
              ⟨false, c, packFrame buf varname (now % 18446744073709551616) dtype len data,
                [SockOp.send c.sockfd
                  ((packFrame buf varname (now % 18446744073709551616) dtype len data).take
                    128)]⟩
        | SendResult.ok _ =>
            ⟨true, c, packFrame buf varname (now % 18446744073709551616) dtype len data,
              [SockOp.send c.sockfd
                ((packFrame buf varname (now % 18446744073709551616) dtype len data).take
                  128)]⟩) := by
  unfold writeToDataserver
  simp only [hconn, DPOINT_BINARY_FIXED_LENGTH]
  rw [if_neg (not_lt.mpr htot)]
  cases sr <;> simp

theorem packFrame_length (buf varname data : List Nat) (ts : Nat) (dtype len : Int) :
    (packFrame buf varname ts dtype len data).length = buf.length := by
  unfold packFrame
  simp only [memcpy_length]

theorem sentFrames_disconnect (c : DataserverClient) : sentFrames (disconnect c).2 = [] := by
  unfold disconnect
  split <;> rfl

theorem total_bytes_of_fit (varname : List Nat) (m : Nat) (hnul : ∀ b ∈ varname, b ≠ 0)
    (hfit : 19 + varname.length + m ≤ 128) :
    total_bytes varname (m : Int) = 19 + varname.length + m := by
  unfold total_bytes varlenOf
  rw [strlen_of_no_nul varname hnul]
  omega

/-- What a call that reaches `send` hands to it: the whole scratch buffer,
once, as the first socket operation. -/
theorem writeToDataserver_sent_of_fit (c : DataserverClient) (buf varname data : List Nat)
    (dtype len : Int) (now : Nat) (sr : SendResult)
    (hconn : c.connected = true) (hbuf : buf.length = 128)
    (htot : total_bytes varname len ≤ 128) :
    sentFrames (writeToDataserver c buf varname dtype len data now sr).ops
      = [packFrame buf varname (now % 18446744073709551616) dtype len data] ∧
    (writeToDataserver c buf varname dtype len data now sr).ops.head?
      = some (SockOp.send c.sockfd
          (packFrame buf varname (now % 18446744073709551616) dtype len data)) ∧
    (writeToDataserver c buf varname dtype len data now sr).buf
      = packFrame buf varname (now % 18446744073709551616) dtype len data := by
  have hlen := packFrame_length buf varname data (now % 18446744073709551616) dtype len
  rw [hbuf] at hlen
  have htake : (packFrame buf varname (now % 18446744073709551616) dtype len data).take 128
      = packFrame buf varname (now % 18446744073709551616) dtype len data :=
    List.take_of_length_le (by omega)
  rw [writeToDataserver_of_fit c buf varname data dtype _ now sr hconn htot, htake]
  cases sr with
  | ok k => exact ⟨rfl, rfl, rfl⟩
  | err e =>
    by_cases he : e = EPIPE ∨ e = ECONNRESET ∨ e = ENOTCONN
    · simp only [he, if_true, sentFrames, sentFrames_disconnect, List.head?_cons, and_self]
    · simp only [he, if_false, sentFrames, List.head?_cons, and_self]

/-- The fields of an in-range frame, offset by offset. -/
theorem packFrame_slices (buf varname data : List Nat) (ts : Nat) (dtype : Int)
    (hbuf : buf.length = 128) (hnul : ∀ b ∈ varname, b ≠ 0)
    (hfit : 19 + varname.length + data.length ≤ 128) :
    slice (packFrame buf varname ts dtype (data.length : Int) data) 0 1 = [0x3E] ∧
    slice (packFrame buf varname ts dtype (data.length : Int) data) 1 2
      = leBytes 2 varname.length ∧
    slice (packFrame buf varname ts dtype (data.length : Int) data) 3 varname.length
      = varname ∧
    slice (packFrame buf varname ts dtype (data.length : Int) data) (3 + varname.length) 8
      = leBytes 8 ts ∧
    slice (packFrame buf varname ts dtype (data.length : Int) data) (11 + varname.length) 4
      = leBytes 4 (dtype % 4294967296).toNat ∧
    slice (packFrame buf varname ts dtype (data.length : Int) data) (15 + varname.length) 4
      = leBytes 4 data.length ∧
    slice (packFrame buf varname ts dtype (data.length : Int) data) (19 + varname.length)
      data.length = data ∧
    (packFrame buf varname ts dtype (data.length : Int) data).drop
      (19 + varname.length + data.length) = buf.drop (19 + varname.length + data.length) := by
  have hlay := packFrame_layout buf varname data ts dtype (data.length : Int) hbuf hnul rfl hfit
  refine ⟨?_, ?_, ?_, ?_, ?_, ?_, ?_, ?_⟩
  · exact slice_of_eq _ [] [0x3E] (leBytes 2 varname.length ++ varname ++ leBytes 8 ts
      ++ leBytes 4 (dtype % 4294967296).toNat ++ leBytes 4 data.length ++ data
      ++ buf.drop (19 + varname.length + data.length)) 0 1
      (by rw [hlay]; simp only [List.append_assoc, List.nil_append]) rfl rfl
  · exact slice_of_eq _ [0x3E] _ (varname ++ leBytes 8 ts
      ++ leBytes 4 (dtype % 4294967296).toNat ++ leBytes 4 data.length ++ data
      ++ buf.drop (19 + varname.length + data.length)) 1 2
      (by rw [hlay]; simp only [List.append_assoc]) rfl (by simp [leBytes_length])
  · exact slice_of_eq _ ([0x3E] ++ leBytes 2 varname.length) _
      (leBytes 8 ts ++ leBytes 4 (dtype % 4294967296).toNat ++ leBytes 4 data.length ++ data
      ++ buf.drop (19 + varname.length + data.length)) 3 _
      (by rw [hlay]; simp only [List.append_assoc]) (by simp [leBytes_length]) rfl
  · exact slice_of_eq _ ([0x3E] ++ leBytes 2 varname.length ++ varname) _
      (leBytes 4 (dtype % 4294967296).toNat ++ leBytes 4 data.length ++ data
      ++ buf.drop (19 + varname.length + data.length)) _ 8
      (by rw [hlay]; simp only [List.append_assoc])
      (by simp [leBytes_length]; omega) (by simp [leBytes_length])
  · exact slice_of_eq _ ([0x3E] ++ leBytes 2 varname.length ++ varname ++ leBytes 8 ts) _
      (leBytes 4 data.length ++ data ++ buf.drop (19 + varname.length + data.length)) _ 4
      (by rw [hlay]; simp only [List.append_assoc])
      (by simp [leBytes_length]; omega) (by simp [leBytes_length])
  · exact slice_of_eq _ ([0x3E] ++ leBytes 2 varname.length ++ varname ++ leBytes 8 ts
      ++ leBytes 4 (dtype % 4294967296).toNat)
      _ (data ++ buf.drop (19 + varname.length + data.length)) _ 4
      (by rw [hlay]; simp only [List.append_assoc])
      (by simp [leBytes_length]; omega) (by simp [leBytes_length])
  · exact slice_of_eq _ ([0x3E] ++ leBytes 2 varname.length ++ varname ++ leBytes 8 ts
      ++ leBytes 4 (dtype % 4294967296).toNat ++ leBytes 4 data.length) _
      (buf.drop (19 + varname.length + data.length)) _ _
      (by rw [hlay]; simp only [List.append_assoc])
      (by simp [leBytes_length]; omega) rfl
  · rw [hlay]
    apply List.drop_left'
    simp [leBytes_length]
    omega

/-- C1: on a Connected link, a publish whose record fits (19 + n + m ≤ 128, name
without NUL) hands exactly one frame of exactly 128 bytes to `send`; the frame
is laid out as marker 0x3E at 0, n as 16-bit little-endian at 1, the name at 3,
the timestamp as 64-bit little-endian at 3+n, the type tag as 32-bit
little-endian at 11+n, m as 32-bit little-endian at 15+n and the payload at
19+n; the declared payload length is the size of the payload region, and the
tail keeps the previous contents of the scratch buffer. -/
theorem writeToDataserver_frame_layout (c : DataserverClient) (buf varname data : List Nat)
    (dtype : Int) (now : Nat) (sr : SendResult)
    (hconn : c.connected = true) (hbuf : buf.length = 128)
    (hnul : ∀ b ∈ varname, b ≠ 0)
    (hfit : 19 + varname.length + data.length ≤ 128) :
    ∃ frame : List Nat,
      sentFrames (writeToDataserver c buf varname dtype (data.length : Int) data now sr).ops
        = [frame] ∧
      (writeToDataserver c buf varname dtype (data.length : Int) data now sr).ops.head?
        = some (SockOp.send c.sockfd frame) ∧
      frame.length = 128 ∧
      slice frame 0 1 = [0x3E] ∧
      slice frame 1 2 = leBytes 2 varname.length ∧
      leValue (slice frame 1 2) = varname.length ∧
      slice frame 3 varname.length = varname ∧
      slice frame (3 + varname.length) 8 = leBytes 8 (now % 18446744073709551616) ∧
      slice frame (11 + varname.length) 4 = leBytes 4 (dtype % 4294967296).toNat ∧
      slice frame (15 + varname.length) 4 = leBytes 4 data.length ∧
      leValue (slice frame (15 + varname.length) 4) = data.length ∧
      slice frame (19 + varname.length) data.length = data ∧
      frame.drop (19 + varname.length + data.length)
        = buf.drop (19 + varname.length + data.length) := by
  have htot : total_bytes varname (data.length : Int) ≤ 128 := by
    rw [total_bytes_of_fit varname data.length hnul hfit]; exact hfit
  obtain ⟨h1, h2, _⟩ := writeToDataserver_sent_of_fit c buf varname data dtype
    (data.length : Int) now sr hconn hbuf htot
  obtain ⟨s0, s1, s2, s3, s4, s5, s6, s7⟩ := packFrame_slices buf varname data
    (now % 18446744073709551616) dtype hbuf hnul hfit
  have hlen := packFrame_length buf varname data (now % 18446744073709551616) dtype
    (data.length : Int)
  refine ⟨_, h1, h2, hlen.trans hbuf, s0, s1, ?_, s2, s3, s4, s5, ?_, s6, s7⟩
  · rw [s1]; exact leValue_leBytes 2 _ (by omega)
  · rw [s5]; exact leValue_leBytes 4 _ (by omega)

theorem writeToDataserver_frame_layout_witness :
    sampleClient.connected = true ∧ zeroBuf.length = 128 ∧
    (∀ b ∈ sensor0_touched_point, b ≠ 0) ∧
    19 + sensor0_touched_point.length + [5, 0].length ≤ 128 ∧
    ∃ frame : List Nat,
      sentFrames (writeToDataserver sampleClient zeroBuf sensor0_touched_point 4 2 [5, 0]
        1000 (SendResult.ok 128)).ops = [frame] ∧
      frame.length = 128 ∧ slice frame 0 1 = [0x3E] ∧ slice frame 40 2 = [5, 0] := by
  refine ⟨rfl, List.length_replicate 128 0, by decide, by decide, ?_⟩
  obtain ⟨frame, h1, _, h3, h4, _, _, _, _, _, _, _, h12, _⟩ :=
    writeToDataserver_frame_layout sampleClient zeroBuf sensor0_touched_point [5, 0] 4 1000
      (SendResult.ok 128) rfl (List.length_replicate 128 0) (by decide) (by decide)
  exact ⟨frame, h1, h3, h4, h12⟩

/-! ## The size check -/

theorem memcpy_take_of_le (buf : List Nat) (idx : Nat) (src : List Nat) (n k : Nat)
    (hk : k ≤ idx) : (memcpy buf idx src n).take k = buf.take k := by
  unfold memcpy
  rw [List.take_take, List.append_assoc]
  by_cases hb : k ≤ buf.length
  · rw [min_eq_left hb, List.take_append_of_le_length (by simp; omega), List.take_take,
      min_eq_left hk]
  · have hb2 : buf.length ≤ k := by omega
    rw [min_eq_right hb2, List.take_of_length_le (l := buf) (by omega),
      List.take_of_length_le (l := buf) hb2]
    rw [List.take_append_of_le_length (by simp), List.take_length]


/-- A record whose logical length is over 128 and below 65536 is rejected
before anything is written or sent. -/
theorem writeToDataserver_oversize_rejected (c : DataserverClient)
    (buf varname data : List Nat) (dtype : Int) (m : Nat) (now : Nat) (sr : SendResult)
    (hnul : ∀ b ∈ varname, b ≠ 0) (hbig : 128 < 19 + varname.length + m)
    (hsmall : 19 + varname.length + m < 65536) :
    writeToDataserver c buf varname dtype (m : Int) data now sr = ⟨false, c, buf, []⟩ := by
  have htot : total_bytes varname (m : Int) = 19 + varname.length + m := by
    unfold total_bytes varlenOf
    rw [strlen_of_no_nul varname hnul]
    omega
  unfold writeToDataserver
  by_cases hc : c.connected = true
  · simp only [hc, DPOINT_BINARY_FIXED_LENGTH, htot]
    simp [hbig]
  · simp [hc]

/-! ## Round trip -/

/-- In range, the inverse parser recovers name, timestamp, type tag and payload
from the packed frame. -/
theorem parseFrame_packFrame (buf varname data : List Nat) (ts : Nat) (dtype : Int)
    (hbuf : buf.length = 128) (hnul : ∀ b ∈ varname, b ≠ 0)
    (hfit : 19 + varname.length + data.length ≤ 128)
    (hts : ts < 18446744073709551616) (hd0 : 0 ≤ dtype) (hd1 : dtype < 4294967296) :
    parseFrame (packFrame buf varname ts dtype (data.length : Int) data)
      = some (varname, ts, dtype.toNat, data) := by
  obtain ⟨s0, s1, s2, s3, s4, s5, s6, _⟩ := packFrame_slices buf varname data ts dtype hbuf
    hnul hfit
  have hlen := packFrame_length buf varname data ts dtype (data.length : Int)
  have e1 : leValue (slice (packFrame buf varname ts dtype (data.length : Int) data) 1 2)
      = varname.length := by
    rw [s1]; exact leValue_leBytes 2 _ (by omega)
  have e3 : leValue (leBytes 8 ts) = ts := leValue_leBytes 8 ts (by omega)
  have e4 : leValue (leBytes 4 (dtype % 4294967296).toNat) = dtype.toNat := by
    rw [leValue_leBytes 4 _ (by omega)]
    omega
  have e5 : leValue (leBytes 4 data.length) = data.length :=
    leValue_leBytes 4 _ (by omega)
  unfold parseFrame
  simp only [e1, s0, s2, s3, s4, s5, s6, e3, e4, e5, hlen, hbuf, ne_eq, not_true_eq_false,
    if_false]
  rw [if_neg (by omega)]

/-- The 16-bit `varlen` of a name of `n` bytes `a` is `n % 65536`. -/
theorem varlenOf_replicate (n : Nat) : varlenOf (List.replicate n 97) = n % 65536 := by
  unfold varlenOf
  rw [strlen_of_no_nul _ (fun b hb => by rw [List.eq_of_mem_replicate hb]; decide),
    List.length_replicate]

/-- The 16-bit `varlen` of a name of 65536 bytes is 0. -/
theorem varlenOf_replicate_65536 : varlenOf (List.replicate 65536 97) = 0 :=
  varlenOf_replicate 65536

theorem replicate_ne_nil (n : Nat) (hn : 0 < n) : List.replicate n 97 ≠ ([] : List Nat) := by
  intro h
  have hl := congrArg List.length h
  rw [List.length_replicate] at hl
  simp at hl
  omega

/-- Only the first `varlen` bytes of the name enter the frame. -/
theorem packFrame_of_varlen_zero (buf varname data : List Nat) (ts : Nat) (dtype len : Int)
    (hv : varlenOf varname = 0) :
    packFrame buf varname ts dtype len data = packFrame buf [] ts dtype len data := by
  have h0 : varlenOf [] = 0 := by decide
  unfold packFrame
  simp only [hv, h0]
  have hm : ∀ (b : List Nat) (i : Nat), memcpy b i varname 0 = memcpy b i [] 0 := by
    intro b i
    unfold memcpy
    simp
  rw [hm]

/-- In range every copy of the packing stays in bounds. -/
theorem packInBounds_of_fit (buf varname data : List Nat) (ts : Nat) (dtype : Int)
    (hbuf : buf.length = 128) (hnul : ∀ b ∈ varname, b ≠ 0)
    (hfit : 19 + varname.length + data.length ≤ 128) :
    packInBounds buf varname ts dtype (data.length : Int) data = true := by
  have hv : varlenOf varname = varname.length := by
    unfold varlenOf
    rw [strlen_of_no_nul varname hnul]
    omega
  have hd : ((data.length : Int) % 4294967296).toNat = data.length := by omega
  unfold packInBounds copyInBounds
  simp only [hv, hd, hbuf, leBytes_length, List.length_singleton, Bool.and_eq_true,
    decide_eq_true_eq]
  omega

/-- The copies of the packing for a name of 65536 bytes and a payload of 2
bytes all stay in bounds: the name copy has length 0. -/
theorem packInBounds_long_name (ts : Nat) (dtype : Int) :
    packInBounds zeroBuf (List.replicate 65536 97) ts dtype 2 [5, 0] = true := by
  have hz : zeroBuf.length = 128 := List.length_replicate 128 0
  have hd : ((2 : Int) % 4294967296).toNat = 2 := by decide
  unfold packInBounds copyInBounds
  simp only [varlenOf_replicate_65536, hd, hz, leBytes_length, List.length_singleton,
    List.length_replicate, List.length_cons, List.length_nil, Bool.and_eq_true,
    decide_eq_true_eq]
  omega

/-- C2 (evaluation at the failing input): for a name of 65536 bytes `a` and a
payload of 2 bytes the logical length 1 + 2 + 65536 + 8 + 4 + 4 + 2 is over
128, but the 16-bit name length is 0 and the 16-bit `total_bytes` is 21, so
the size check passes: every copy stays inside the buffer, the scratch buffer
is written (it starts with 0x3E), one frame is handed to `send` and the
publish returns success. -/
theorem writeToDataserver_oversize_wraps :
    128 < 1 + 2 + (List.replicate 65536 97).length + 8 + 4 + 4 + ([5, 0] : List Nat).length ∧
    varlenOf (List.replicate 65536 97) = 0 ∧
    total_bytes (List.replicate 65536 97) 2 = 21 ∧
    packInBounds zeroBuf (List.replicate 65536 97) (1000 % 18446744073709551616) 4 2 [5, 0]
      = true ∧
    (writeToDataserver sampleClient zeroBuf (List.replicate 65536 97) 4 2 [5, 0] 1000
        (SendResult.ok 128)).ret = true ∧
    (writeToDataserver sampleClient zeroBuf (List.replicate 65536 97) 4 2 [5, 0] 1000
        (SendResult.ok 128)).ops
      = [SockOp.send 3 (writeToDataserver sampleClient zeroBuf (List.replicate 65536 97) 4 2
          [5, 0] 1000 (SendResult.ok 128)).buf] ∧
    slice (writeToDataserver sampleClient zeroBuf (List.replicate 65536 97) 4 2 [5, 0] 1000
        (SendResult.ok 128)).buf 0 1 = [0x3E] ∧
    (writeToDataserver sampleClient zeroBuf (List.replicate 65536 97) 4 2 [5, 0] 1000
        (SendResult.ok 128)).buf ≠ zeroBuf := by
  have hz : zeroBuf.length = 128 := List.length_replicate 128 0
  have htot : total_bytes (List.replicate 65536 97) 2 = 21 := by
    unfold total_bytes
    rw [varlenOf_replicate_65536]
    decide
  have hle : total_bytes (List.replicate 65536 97) 2 ≤ 128 := by rw [htot]; decide
  obtain ⟨_, _, h3⟩ := writeToDataserver_sent_of_fit sampleClient zeroBuf
    (List.replicate 65536 97) [5, 0] 4 2 1000 (SendResult.ok 128) rfl hz hle
  have hpk : packFrame zeroBuf (List.replicate 65536 97) (1000 % 18446744073709551616) 4 2
      [5, 0] = packFrame zeroBuf [] (1000 % 18446744073709551616) 4 2 [5, 0] :=
    packFrame_of_varlen_zero _ _ _ _ _ _ varlenOf_replicate_65536
  have hs : slice (packFrame zeroBuf [] (1000 % 18446744073709551616) 4 2 [5, 0]) 0 1
      = [0x3E] :=
    (packFrame_slices zeroBuf [] [5, 0] (1000 % 18446744073709551616) 4 hz (by simp)
      (by decide)).1
  have hlen := packFrame_length zeroBuf (List.replicate 65536 97) [5, 0]
    (1000 % 18446744073709551616) 4 2
  have hb : slice (writeToDataserver sampleClient zeroBuf (List.replicate 65536 97) 4 2 [5, 0]
      1000 (SendResult.ok 128)).buf 0 1 = [0x3E] := by
    rw [h3, hpk]; exact hs
  have hops : (writeToDataserver sampleClient zeroBuf (List.replicate 65536 97) 4 2 [5, 0] 1000
        (SendResult.ok 128)).ops
      = [SockOp.send 3 (writeToDataserver sampleClient zeroBuf (List.replicate 65536 97) 4 2
          [5, 0] 1000 (SendResult.ok 128)).buf] := by
    rw [h3]
    rw [writeToDataserver_of_fit _ _ _ _ _ _ _ _ rfl hle]
    show [SockOp.send sampleClient.sockfd (List.take 128 _)] = _
    rw [List.take_of_length_le (by rw [hlen, hz])]
    rfl
  refine ⟨by rw [List.length_replicate]; decide, varlenOf_replicate_65536, htot,
    packInBounds_long_name _ _, ?_, hops, hb, ?_⟩
  · rw [writeToDataserver_of_fit _ _ _ _ _ _ _ _ rfl hle]
  · intro h
    rw [h] at hb
    have : slice zeroBuf 0 1 = [0] := by
      unfold slice zeroBuf
      decide
    rw [this] at hb
    exact absurd hb (by decide)

/-- C3 (evaluation at the failing input): for a name of 65536 bytes `a`, type
tag 4 and payload 05 00, the 16-bit name length is 0, the size check passes,
the publish succeeds and sends one frame, and the inverse parser recovers the
empty name from it instead of the name. -/
theorem roundtrip_loses_long_name :
    (∀ b ∈ List.replicate 65536 97, b ≠ 0) ∧
    total_bytes (List.replicate 65536 97) 2 = 21 ∧
    (writeToDataserver sampleClient zeroBuf (List.replicate 65536 97) 4 2 [5, 0] 1000
        (SendResult.ok 128)).ret = true ∧
    sentFrames (writeToDataserver sampleClient zeroBuf (List.replicate 65536 97) 4 2 [5, 0]
        1000 (SendResult.ok 128)).ops
      = [(writeToDataserver sampleClient zeroBuf (List.replicate 65536 97) 4 2 [5, 0] 1000
        (SendResult.ok 128)).buf] ∧
    parseFrame (writeToDataserver sampleClient zeroBuf (List.replicate 65536 97) 4 2 [5, 0]
        1000 (SendResult.ok 128)).buf = some ([], 1000, 4, [5, 0]) ∧
    parseFrame (writeToDataserver sampleClient zeroBuf (List.replicate 65536 97) 4 2 [5, 0]
        1000 (SendResult.ok 128)).buf ≠ some (List.replicate 65536 97, 1000, 4, [5, 0]) := by
  have htot : total_bytes (List.replicate 65536 97) 2 = 21 := by
    unfold total_bytes
    rw [varlenOf_replicate_65536]
    decide
  have hz : zeroBuf.length = 128 := List.length_replicate 128 0
  obtain ⟨h1, _, h3⟩ := writeToDataserver_sent_of_fit sampleClient zeroBuf
    (List.replicate 65536 97) [5, 0] 4 2 1000 (SendResult.ok 128) rfl hz (by rw [htot]; decide)
  have hp : parseFrame (writeToDataserver sampleClient zeroBuf (List.replicate 65536 97) 4 2
      [5, 0] 1000 (SendResult.ok 128)).buf = some ([], 1000, 4, [5, 0]) := by
    rw [h3, packFrame_of_varlen_zero _ _ _ _ _ _ varlenOf_replicate_65536]
    exact parseFrame_packFrame zeroBuf [] [5, 0] (1000 % 18446744073709551616) 4 hz
      (by simp) (by decide) (by decide) (by decide) (by decide)
  refine ⟨fun b hb => by rw [List.eq_of_mem_replicate hb]; decide, htot, ?_, ?_, hp, ?_⟩
  · rw [writeToDataserver_of_fit _ _ _ _ _ _ _ _ rfl (by rw [htot]; decide)]
  · rw [h1, h3]
  · rw [hp]
    intro h
    have h1 : ([] : List Nat) = List.replicate 65536 97 :=
      congrArg Prod.fst (Option.some.inj h)
    exact replicate_ne_nil 65536 (by decide) h1.symm

/-! ## Link state in `writeToDataserver` -/

/-- C4: while the link is Disconnected, every publish returns failure, issues no
socket operation, leaves the scratch buffer as it was (the record is kept
nowhere) and leaves the client (connection flag, socket handle) unchanged. -/
theorem writeToDataserver_disconnected (c : DataserverClient) (buf varname data : List Nat)
    (dtype len : Int) (now : Nat) (sr : SendResult) (hdis : c.connected = false) :
    (writeToDataserver c buf varname dtype len data now sr).ret = false ∧
    (writeToDataserver c buf varname dtype len data now sr).ops = [] ∧
    sentFrames (writeToDataserver c buf varname dtype len data now sr).ops = [] ∧
    (writeToDataserver c buf varname dtype len data now sr).buf = buf ∧
    (writeToDataserver c buf varname dtype len data now sr).client = c := by
  unfold writeToDataserver
  simp [hdis, sentFrames]

theorem writeToDataserver_disconnected_witness :
    (DataserverClient.new "192.168.88.40" 4620).connected = false ∧
    (writeToDataserver (DataserverClient.new "192.168.88.40" 4620) zeroBuf
        sensor0_touched_point 4 2 [5, 0] 1000 (SendResult.ok 128)).ret = false ∧
    (writeToDataserver (DataserverClient.new "192.168.88.40" 4620) zeroBuf
        sensor0_touched_point 4 2 [5, 0] 1000 (SendResult.ok 128)).ops = [] ∧
    (writeToDataserver (DataserverClient.new "192.168.88.40" 4620) zeroBuf
        sensor0_touched_point 4 2 [5, 0] 1000 (SendResult.ok 128)).buf = zeroBuf ∧
    (writeToDataserver (DataserverClient.new "192.168.88.40" 4620) zeroBuf
        sensor0_touched_point 4 2 [5, 0] 1000 (SendResult.ok 128)).client
      = DataserverClient.new "192.168.88.40" 4620 :=
  have h := writeToDataserver_disconnected (DataserverClient.new "192.168.88.40" 4620) zeroBuf
    sensor0_touched_point [5, 0] 4 2 1000 (SendResult.ok 128) rfl
  ⟨rfl, h.1, h.2.1, h.2.2.2.1, h.2.2.2.2⟩

/-- C5: on a Connected link, for a publish that reaches `send` (the size check
passes): if `send` fails with EPIPE, ECONNRESET or ENOTCONN the publish returns
failure, the connection flag is cleared and the handle is closed (an open
handle is closed once and reset to -1); if `send` fails with any other error
the publish returns failure and the client is unchanged; if `send` succeeds the
publish returns success and the client is unchanged. -/
theorem writeToDataserver_send_outcome (c : DataserverClient) (buf varname data : List Nat)
    (dtype len : Int) (now : Nat)
    (hconn : c.connected = true) (htot : total_bytes varname len ≤ 128) :
    (∀ e : Nat, e = EPIPE ∨ e = ECONNRESET ∨ e = ENOTCONN →
      (writeToDataserver c buf varname dtype len data now (SendResult.err e)).ret = false ∧
      (writeToDataserver c buf varname dtype len data now (SendResult.err e)).client.connected
        = false ∧
      (writeToDataserver c buf varname dtype len data now (SendResult.err e)).client.sockfd
        < 0 ∧
      (0 ≤ c.sockfd →
        (writeToDataserver c buf varname dtype len data now (SendResult.err e)).client
          = { c with sockfd := -1, connected := false } ∧
        (writeToDataserver c buf varname dtype len data now (SendResult.err e)).ops
          = [SockOp.send c.sockfd
              ((packFrame buf varname (now % 18446744073709551616) dtype len data).take 128),
             SockOp.close c.sockfd])) ∧
    (∀ e : Nat, ¬ (e = EPIPE ∨ e = ECONNRESET ∨ e = ENOTCONN) →
      (writeToDataserver c buf varname dtype len data now (SendResult.err e)).ret = false ∧
      (writeToDataserver c buf varname dtype len data now (SendResult.err e)).client = c ∧
      (writeToDataserver c buf varname dtype len data now (SendResult.err e)).ops
          = [SockOp.send c.sockfd
              ((packFrame buf varname (now % 18446744073709551616) dtype len data).take
                128)]) ∧
    (∀ k : Nat,
      (writeToDataserver c buf varname dtype len data now (SendResult.ok k)).ret = true ∧
      (writeToDataserver c buf varname dtype len data now (SendResult.ok k)).client = c ∧
      (writeToDataserver c buf varname dtype len data now (SendResult.ok k)).ops
          = [SockOp.send c.sockfd
              ((packFrame buf varname (now % 18446744073709551616) dtype len data).take
                128)]) := by
  refine ⟨?_, ?_, ?_⟩
  · intro e he
    rw [writeToDataserver_of_fit c buf varname data dtype len now _ hconn htot]
    simp only [he, if_true]
    unfold disconnect
    by_cases hfd : 0 ≤ c.sockfd
    · simp [hfd]
    · simp only [hfd, if_false, false_implies, and_true, true_and]
      omega
  · intro e he
    rw [writeToDataserver_of_fit c buf varname data dtype len now _ hconn htot]
    simp only [he, if_false, and_self]
  · intro k
    rw [writeToDataserver_of_fit c buf varname data dtype len now _ hconn htot]
    exact ⟨rfl, rfl, rfl⟩

theorem writeToDataserver_send_outcome_witness :
    sampleClient.connected = true ∧ total_bytes sensor0_touched_point 2 ≤ 128 ∧
    (writeToDataserver sampleClient zeroBuf sensor0_touched_point 4 2 [5, 0] 1000
        (SendResult.err EPIPE)).client.connected = false ∧
    (writeToDataserver sampleClient zeroBuf sensor0_touched_point 4 2 [5, 0] 1000
        (SendResult.err EPIPE)).client.sockfd = -1 ∧
    (writeToDataserver sampleClient zeroBuf sensor0_touched_point 4 2 [5, 0] 1000
        (SendResult.err EAGAIN)).client = sampleClient ∧
    (writeToDataserver sampleClient zeroBuf sensor0_touched_point 4 2 [5, 0] 1000
        (SendResult.ok 128)).ret = true := by
  have h := writeToDataserver_send_outcome sampleClient zeroBuf sensor0_touched_point [5, 0]
    4 2 1000 rfl (by decide)
  refine ⟨rfl, by decide, (h.1 EPIPE (Or.inl rfl)).2.1, ?_, (h.2.1 EAGAIN (by decide)).2.1,
    (h.2.2 128).1⟩
  rw [((h.1 EPIPE (Or.inl rfl)).2.2.2 (by decide)).1]

/-! ## Controller initialisation -/

theorem range_six : List.range 6 = [0, 1, 2, 3, 4, 5] := by decide

theorem writeRegister_trace (env : I2cEnv) (dev : MPR121) (bus : I2c) (reg value : Nat) :
    (writeRegister env dev bus reg value).trace
      = bus.trace ++ [BusOp.write dev.i2c_fd [reg % 256, value % 256]] := rfl

theorem writeRegister_nwrites (env : I2cEnv) (dev : MPR121) (bus : I2c) (reg value : Nat) :
    (writeRegister env dev bus reg value).nwrites = bus.nwrites + 1 := rfl

theorem sleep_for_trace (bus : I2c) (ms : Nat) :
    (sleep_for bus ms).trace = bus.trace ++ [BusOp.sleepMs ms] := rfl

theorem sleep_for_nwrites (bus : I2c) (ms : Nat) : (sleep_for bus ms).nwrites = bus.nwrites :=
  rfl

theorem thresholdStep_trace (env : I2cEnv) (dev : MPR121) (bus : I2c) (i : Nat) :
    (thresholdStep env dev bus i).trace
      = bus.trace ++ [BusOp.write dev.i2c_fd [(0x41 + i * 2) % 256, 12],
                      BusOp.write dev.i2c_fd [(0x42 + i * 2) % 256, 6]] := by
  unfold thresholdStep
  simp only [writeRegister_trace, List.append_assoc, List.singleton_append]

theorem thresholdStep_nwrites (env : I2cEnv) (dev : MPR121) (bus : I2c) (i : Nat) :
    (thresholdStep env dev bus i).nwrites = bus.nwrites + 2 := rfl

theorem readRegister8_trace (env : I2cEnv) (dev : MPR121) (bus : I2c) (reg : Nat) :
    (readRegister8 env dev bus reg).2.trace
      = bus.trace ++ [BusOp.write dev.i2c_fd [reg % 256]] ++
        (if env.writeRet bus.nwrites = 1 then [BusOp.read dev.i2c_fd 1] else []) := by
  unfold readRegister8
  by_cases hw : env.writeRet bus.nwrites = 1
  · by_cases hr : (env.readRet bus.nreads).1 = 1 <;> simp [hw, hr]
  · simp [hw]

/-- The bus trace of `begin` once the bus is open and the address bound. -/
theorem begin_trace (env : I2cEnv) (dev : MPR121) (bus : I2c) (path : String)
    (hopen : 0 ≤ env.openRet) (hioctl : 0 ≤ env.ioctlRet) :
    (MPR121.begin env dev bus path).bus.trace
      = bus.trace ++
        [BusOp.openDev path, BusOp.ioctlSlave env.openRet dev.i2c_addr,
         BusOp.write env.openRet [0x5E, 0x00], BusOp.sleepMs 10,
         BusOp.write env.openRet [0x41, 12], BusOp.write env.openRet [0x42, 6],
         BusOp.write env.openRet [0x43, 12], BusOp.write env.openRet [0x44, 6],
         BusOp.write env.openRet [0x45, 12], BusOp.write env.openRet [0x46, 6],
         BusOp.write env.openRet [0x47, 12], BusOp.write env.openRet [0x48, 6],
         BusOp.write env.openRet [0x49, 12], BusOp.write env.openRet [0x4A, 6],
         BusOp.write env.openRet [0x4B, 12], BusOp.write env.openRet [0x4C, 6],
         BusOp.write env.openRet [0x5E, 0x06], BusOp.sleepMs 100,
         BusOp.write env.openRet [0x5E]] ++
        (if env.writeRet (bus.nwrites + 14) = 1 then [BusOp.read env.openRet 1] else []) := by
  unfold MPR121.begin
  simp only [not_lt.mpr hopen, not_lt.mpr hioctl, if_false, range_six, List.foldl,
    readRegister8_trace, sleep_for_trace, sleep_for_nwrites, writeRegister_trace,
    writeRegister_nwrites, thresholdStep_trace, thresholdStep_nwrites]
  simp

/-- The flag `begin` returns depends on `open` and `ioctl` only. -/
theorem begin_ret (env : I2cEnv) (dev : MPR121) (bus : I2c) (path : String) :
    (MPR121.begin env dev bus path).ret
      = (decide (0 ≤ env.openRet) && decide (0 ≤ env.ioctlRet)) := by
  unfold MPR121.begin
  by_cases ho : env.openRet < 0
  · simp [ho]
  · by_cases hi : env.ioctlRet < 0
    · simp [ho, hi]
    · simp only [ho, hi, if_false]
      simp [not_lt.mp ho, not_lt.mp hi]

theorem initProtocol_eq :
    initProtocol =
      [Sum.inl (0x5E, 0x00), Sum.inr 10,
       Sum.inl (0x41, 12), Sum.inl (0x42, 6), Sum.inl (0x43, 12), Sum.inl (0x44, 6),
       Sum.inl (0x45, 12), Sum.inl (0x46, 6), Sum.inl (0x47, 12), Sum.inl (0x48, 6),
       Sum.inl (0x49, 12), Sum.inl (0x4A, 6), Sum.inl (0x4B, 12), Sum.inl (0x4C, 6),
       Sum.inl (0x5E, 0x06), Sum.inr 100] := by
  decide

/-- C8: once the bus is open and the slave address bound, `begin` issues
exactly: write 0x00 to ECR (0x5E), sleep 10 ms, for k = 0..5 in increasing order
write 12 to 0x41 + 2k then 6 to 0x42 + 2k, write 0x06 to ECR, sleep 100 ms; the
only bus traffic besides is the read-back of ECR after the last sleep (a
one-byte address write and a read), so no other register is written in
between.  This holds whatever the writes return. -/
theorem begin_register_sequence (env : I2cEnv) (dev : MPR121) (bus : I2c) (path : String)
    (hopen : 0 ≤ env.openRet) (hioctl : 0 ≤ env.ioctlRet) :
    regWritesAndSleeps ((MPR121.begin env dev bus path).bus.trace.drop bus.trace.length)
      = initProtocol ∧
    (MPR121.begin env dev bus path).bus.trace
      = bus.trace ++
        [BusOp.openDev path, BusOp.ioctlSlave env.openRet dev.i2c_addr,
         BusOp.write env.openRet [0x5E, 0x00], BusOp.sleepMs 10,
         BusOp.write env.openRet [0x41, 12], BusOp.write env.openRet [0x42, 6],
         BusOp.write env.openRet [0x43, 12], BusOp.write env.openRet [0x44, 6],
         BusOp.write env.openRet [0x45, 12], BusOp.write env.openRet [0x46, 6],
         BusOp.write env.openRet [0x47, 12], BusOp.write env.openRet [0x48, 6],
         BusOp.write env.openRet [0x49, 12], BusOp.write env.openRet [0x4A, 6],
         BusOp.write env.openRet [0x4B, 12], BusOp.write env.openRet [0x4C, 6],
         BusOp.write env.openRet [0x5E, 0x06], BusOp.sleepMs 100,
         BusOp.write env.openRet [0x5E]] ++
        (if env.writeRet (bus.nwrites + 14) = 1 then [BusOp.read env.openRet 1] else []) := by
  have ht := begin_trace env dev bus path hopen hioctl
  refine ⟨?_, ht⟩
  rw [ht, List.append_assoc, List.drop_left, initProtocol_eq]
  by_cases hw : env.writeRet (bus.nwrites + 14) = 1
  · simp [hw, regWritesAndSleeps]
  · simp [hw, regWritesAndSleeps]

theorem begin_register_sequence_witness :
    0 ≤ healthyEnv.openRet ∧ 0 ≤ healthyEnv.ioctlRet ∧
    regWritesAndSleeps
      ((MPR121.begin healthyEnv (MPR121.new 0x5A) freshBus "/dev/i2c-1").bus.trace.drop
        freshBus.trace.length) = initProtocol :=
  ⟨by decide, by decide,
    (begin_register_sequence healthyEnv (MPR121.new 0x5A) freshBus "/dev/i2c-1"
      (by decide) (by decide)).1⟩

/-- C9 (counterexample): with the bus open and the address bound but every
register write failing, `begin` returns true and the supervisor goes on. -/
theorem begin_ignores_write_failure :
    (∀ k : Nat, absentChipEnv.writeRet k ≠ 2) ∧
    (MPR121.begin absentChipEnv (MPR121.new 0x5A) freshBus "/dev/i2c-1").ret = true ∧
    (MPR121.begin absentChipEnv (MPR121.new 0x5A) freshBus "/dev/i2c-1").ret ≠ false ∧
    initSensors absentChipEnv absentChipEnv (MPR121.new 0x5A) (MPR121.new 0x5B) freshBus
      freshBus = none := by
  have h : ∀ a : Nat, (MPR121.begin absentChipEnv (MPR121.new a) freshBus "/dev/i2c-1").ret
      = true := by
    intro a
    rw [begin_ret]
    decide
  refine ⟨fun _ => (by decide : (-1 : Int) ≠ 2), h 0x5A, by rw [h 0x5A]; decide, ?_⟩
  unfold initSensors
  rw [h 0x5A, h 0x5B]
  rfl

/-- C9 (amended): `begin` reports failure exactly when opening the bus or
binding the slave address fails, whatever the register writes return (a
failing register write is only logged).  The supervisor treats a failed
`begin` as fatal: its sensor initialisation (lines 470-481) returns 1 when
`begin` fails for one of the two controllers and goes on otherwise, so a
register-write failure alone does not make it exit there. -/
theorem begin_fails_only_on_open_or_bind (env env1 : I2cEnv) (dev dev1 : MPR121)
    (bus bus1 : I2c) (path : String) :
    (MPR121.begin env dev bus path).ret
      = (decide (0 ≤ env.openRet) && decide (0 ≤ env.ioctlRet)) ∧
    initSensors env env1 dev dev1 bus bus1
      = (if (decide (0 ≤ env.openRet) && decide (0 ≤ env.ioctlRet)
            && decide (0 ≤ env1.openRet) && decide (0 ≤ env1.ioctlRet)) = true
          then none else some 1) := by
  refine ⟨begin_ret env dev bus path, ?_⟩
  unfold initSensors
  rw [begin_ret, begin_ret]
  by_cases h1 : 0 ≤ env.openRet <;> by_cases h2 : 0 ≤ env.ioctlRet <;>
    by_cases h3 : 0 ≤ env1.openRet <;> by_cases h4 : 0 ≤ env1.ioctlRet <;>
    simp [h1, h2, h3, h4]

/-! ## Periodic timer -/

/-- Below one second the conversion is exact and the specification is
well-formed. -/
theorem makeTimerSpec_below_one_second (ms : Int) (h1 : 1 ≤ ms) (h2 : ms ≤ 999) :
    parseTimerInterval ms = some ms ∧
    (makeTimerSpec ms).it_value.wellFormed ∧ (makeTimerSpec ms).it_interval.wellFormed ∧
    (makeTimerSpec ms).it_value.nanos = ms * 1000000 ∧
    (makeTimerSpec ms).it_interval.nanos = ms * 1000000 := by
  have hw : wrapInt32 (ms * 1000000) = ms * 1000000 := by
    unfold wrapInt32
    omega
  have hp : parseTimerInterval ms = some ms := by
    unfold parseTimerInterval
    rw [if_neg (by omega)]
  unfold makeTimerSpec timespec.wellFormed timespec.nanos
  simp only [hw]
  refine ⟨hp, ⟨by omega, by omega, by omega⟩, ⟨by omega, by omega, by omega⟩, by omega,
    by omega⟩

/-- C10 (evaluation at the failing input): the interval 1000 ms is accepted by
the argument check, and the timer is armed with `tv_sec = 0`,
`tv_nsec = 1000000000`, which is not a well-formed time specification; for the
accepted interval 10000 ms the product formed in `int` exceeds `INT_MAX` and
the armed value does not denote 10000 ms. -/
theorem makeTimerSpec_one_second_ill_formed :
    parseTimerInterval 1000 = some 1000 ∧
    (makeTimerSpec 1000).it_value = { tv_sec := 0, tv_nsec := 1000000000 } ∧
    (makeTimerSpec 1000).it_interval = { tv_sec := 0, tv_nsec := 1000000000 } ∧
    ¬ (makeTimerSpec 1000).it_value.wellFormed ∧
    ¬ (makeTimerSpec 1000).it_interval.wellFormed ∧
    parseTimerInterval 10000 = some 10000 ∧
    (2147483647 : Int) < 10000 * 1000000 ∧
    (makeTimerSpec 10000).it_value.nanos ≠ 10000 * 1000000 ∧
    ¬ (makeTimerSpec 10000).it_value.wellFormed := by
  decide

/-! ## Sampling cycle -/

theorem testConnection_of_alive (c : DataserverClient) (rr : RecvResult)
    (hup : c.up = true) (ha : rr.alive = true) :
    testConnection c rr = (true, c, [SockOp.recvPeek c.sockfd]) := by
  unfold DataserverClient.up at hup
  simp only [Bool.and_eq_true, decide_eq_true_eq] at hup
  unfold testConnection
  simp only [hup.1, Bool.not_true, Bool.false_or, decide_eq_true_eq, not_lt.mpr hup.2, if_false]
  cases rr with
  | data n => rfl
  | eof => simp [RecvResult.alive] at ha
  | err e =>
    simp only [RecvResult.alive, decide_eq_true_eq] at ha
    simp only [ha, if_true]

theorem writeToDataserver_client_of_keepsLink (c : DataserverClient)
    (buf varname data : List Nat) (dtype len : Int) (now : Nat) (sr : SendResult)
    (hk : sr.keepsLink = true) :
    (writeToDataserver c buf varname dtype len data now sr).client = c := by
  unfold writeToDataserver
  by_cases hc : c.connected = true
  · by_cases ht : total_bytes varname len > DPOINT_BINARY_FIXED_LENGTH
    · simp [hc, ht]
    · cases sr with
      | ok n => simp [hc, ht]
      | err e =>
        simp only [SendResult.keepsLink, Bool.not_eq_true', decide_eq_false_iff_not] at hk
        simp [hc, ht, hk]
  · simp [hc]

theorem publishCalls_append (a b : List Event) :
    publishCalls (a ++ b) = publishCalls a ++ publishCalls b := by
  induction a with
  | nil => rfl
  | cons e t ih =>
    cases e with
    | publish v ty n d => simp [publishCalls, ih]
    | sock op => simp [publishCalls, ih]

theorem publishCalls_sock (ops : List SockOp) : publishCalls (ops.map Event.sock) = [] := by
  induction ops with
  | nil => rfl
  | cons o t ih => simp [publishCalls, ih]

theorem publishCalls_publish (l : Link) (varname data : List Nat) (dtype len : Int) (now : Nat)
    (sr : SendResult) :
    publishCalls (publish l varname dtype len data now sr).2 = [(varname, dtype, len, data)] := by
  unfold publish
  simp [publishCalls, publishCalls_sock]

theorem publish_client_of_keepsLink (l : Link) (varname data : List Nat) (dtype len : Int)
    (now : Nat) (sr : SendResult) (hk : sr.keepsLink = true) :
    (publish l varname dtype len data now sr).1.client = l.client := by
  unfold publish
  exact writeToDataserver_client_of_keepsLink _ _ _ _ _ _ _ _ hk

/-- The touched block on a connected link whose probe succeeds: the link stays
as it is when the send keeps it, `last` becomes `curr`, and there is one
publish call exactly when `curr` differs from `last`. -/
theorem touchedStep_of_up (l : Link) (point : List Nat) (curr last : Nat) (rr : RecvResult)
    (now : Nat) (sr : SendResult) (hup : l.client.up = true) (ha : rr.alive = true) :
    (sr.keepsLink = true → (touchedStep l point curr last rr now sr).1.client = l.client) ∧
    (touchedStep l point curr last rr now sr).2.1 = curr ∧
    publishCalls (touchedStep l point curr last rr now sr).2.2
      = (if curr ≠ last then [(point, DSERV_SHORT, 2, leBytes 2 curr)] else []) := by
  have hc : isConnected l.client = true := by
    unfold DataserverClient.up at hup
    simp only [Bool.and_eq_true] at hup
    exact hup.1
  unfold touchedStep
  by_cases hne : curr ≠ last
  · simp only [hne, hc, testConnection_of_alive l.client rr hup ha, if_true, ne_eq,
      not_false_eq_true]
    refine ⟨fun hk => publish_client_of_keepsLink _ _ _ _ _ _ _ hk, trivial, ?_⟩
    rw [publishCalls_append, publishCalls_sock, publishCalls_publish]
    rfl
  · have he : curr = last := not_not.mp hne
    simp [he, publishCalls]

/-- One cycle on a connected link whose probes succeed and whose touched sends
keep the link: the publish calls, the new last-sent bitmaps, and the link
afterwards when the vals sends keep it too. -/
theorem samplingCycle_of_up (s : LoopState) (i : CycleInput)
    (hup : s.link.client.up = true) (hp : i.probesSucceed = true)
    (hT0 : i.sendT0.keepsLink = true) (hT1 : i.sendT1.keepsLink = true) :
    publishCalls (samplingCycle s i).2
      = (if i.touched0 % 65536 ≠ s.last_touched0
          then [(sensor0_touched_point, DSERV_SHORT, 2, leBytes 2 (i.touched0 % 65536))]
          else []) ++
        (if i.touched1 % 65536 ≠ s.last_touched1
          then [(sensor1_touched_point, DSERV_SHORT, 2, leBytes 2 (i.touched1 % 65536))]
          else []) ++
        [(sensor0_vals_point, DSERV_SHORT, 12, filteredBytes i.filtered0),
         (sensor1_vals_point, DSERV_SHORT, 12, filteredBytes i.filtered1)] ∧
    (samplingCycle s i).1.last_touched0 = i.touched0 % 65536 ∧
    (samplingCycle s i).1.last_touched1 = i.touched1 % 65536 ∧
    (i.sendV0.keepsLink = true → i.sendV1.keepsLink = true →
      (samplingCycle s i).1.link.client = s.link.client) := by
  unfold CycleInput.probesSucceed at hp
  simp only [Bool.and_eq_true] at hp
  obtain ⟨⟨hp0, hp1⟩, hpV⟩ := hp
  obtain ⟨A1, A2, A3⟩ := touchedStep_of_up s.link sensor0_touched_point (i.touched0 % 65536)
    s.last_touched0 i.probeT0 i.nowT0 i.sendT0 hup hp0
  have A1 := A1 hT0
  have hupA : (touchedStep s.link sensor0_touched_point (i.touched0 % 65536)
      s.last_touched0 i.probeT0 i.nowT0 i.sendT0).1.client.up = true := by
    rw [A1]; exact hup
  obtain ⟨B1, B2, B3⟩ := touchedStep_of_up
    (touchedStep s.link sensor0_touched_point (i.touched0 % 65536)
      s.last_touched0 i.probeT0 i.nowT0 i.sendT0).1
    sensor1_touched_point (i.touched1 % 65536)
    s.last_touched1 i.probeT1 i.nowT1 i.sendT1 hupA hp1
  have B1 := (B1 hT1).trans A1
  have hupB : (touchedStep (touchedStep s.link sensor0_touched_point (i.touched0 % 65536)
      s.last_touched0 i.probeT0 i.nowT0 i.sendT0).1
    sensor1_touched_point (i.touched1 % 65536)
    s.last_touched1 i.probeT1 i.nowT1 i.sendT1).1.client.up = true := by
    rw [B1]; exact hup
  have hT := testConnection_of_alive _ i.probeV hupB hpV
  unfold samplingCycle
  simp only [hT, if_true]
  refine ⟨?_, A2, B2, ?_⟩
  · simp only [publishCalls_append, publishCalls_sock, publishCalls_publish, A3, B3,
      List.map, publishCalls, List.append_nil, NSENSORS]
    simp
  · intro hV0 hV1
    rw [publish_client_of_keepsLink _ _ _ _ _ _ _ hV1,
      publish_client_of_keepsLink _ _ _ _ _ _ _ hV0]
    exact B1

/-- C7: in a cycle on a Connected link whose probes succeed (and whose touched
sends do not lose the connection, so that the link is still Connected at the
next check), the publish calls are exactly: sensor-0 touched if its bitmap
differs from the last-sent one, sensor-1 touched if its bitmap differs,
sensor-0 vals, sensor-1 vals, in this order, each with type tag SHORT = 4; a
touched payload is the bitmap as 2 little-endian bytes, a vals payload the six
filtered values of the controller as 12 bytes, each little-endian, in
electrode order. -/
theorem samplingCycle_publish_sequence (s : LoopState) (i : CycleInput)
    (hup : s.link.client.up = true) (hp : i.probesSucceed = true)
    (hT0 : i.sendT0.keepsLink = true) (hT1 : i.sendT1.keepsLink = true) :
    publishCalls (samplingCycle s i).2
      = (if i.touched0 % 65536 ≠ s.last_touched0
          then [(sensor0_touched_point, DSERV_SHORT, 2, leBytes 2 (i.touched0 % 65536))]
          else []) ++
        (if i.touched1 % 65536 ≠ s.last_touched1
          then [(sensor1_touched_point, DSERV_SHORT, 2, leBytes 2 (i.touched1 % 65536))]
          else []) ++
        [(sensor0_vals_point, DSERV_SHORT, 12, filteredBytes i.filtered0),
         (sensor1_vals_point, DSERV_SHORT, 12, filteredBytes i.filtered1)] ∧
    DSERV_SHORT = 4 ∧
    (∀ b : Nat, leBytes 2 b = [b % 256, b / 256 % 256]) ∧
    (∀ f : Nat → Nat, filteredBytes f
      = leBytes 2 (f 0 % 65536) ++ leBytes 2 (f 1 % 65536) ++ leBytes 2 (f 2 % 65536)
        ++ leBytes 2 (f 3 % 65536) ++ leBytes 2 (f 4 % 65536) ++ leBytes 2 (f 5 % 65536)) ∧
    (∀ f : Nat → Nat, (filteredBytes f).length = 12) :=
  ⟨(samplingCycle_of_up s i hup hp hT0 hT1).1, rfl, fun _ => rfl,
    fun _ => by simp [filteredBytes, NSENSORS, range_six],
    fun _ => by simp [filteredBytes, NSENSORS, range_six, leBytes_length]⟩

theorem samplingCycle_publish_sequence_witness :
    sampleStart.link.client.up = true ∧ happyCycle.probesSucceed = true ∧
    happyCycle.sendT0.keepsLink = true ∧ happyCycle.sendT1.keepsLink = true ∧
    publishCalls (samplingCycle sampleStart happyCycle).2
      = [(sensor0_touched_point, 4, 2, [0x05, 0x00]),
         (sensor0_vals_point, 4, 12,
           [0x64, 0x00, 0xC8, 0x00, 0x2C, 0x01, 0x90, 0x01, 0xF4, 0x01, 0x58, 0x02]),
         (sensor1_vals_point, 4, 12, [0, 0, 0, 0, 0, 0, 0, 0, 0, 0, 0, 0])] :=
  ⟨by decide, by decide, by decide, by decide,
    (samplingCycle_publish_sequence sampleStart happyCycle (by decide) (by decide) (by decide)
      (by decide)).1.trans (by decide)⟩

/-! ## Edge-triggered touched publishing -/

theorem touched_points_ne :
    sensor1_touched_point ≠ sensor0_touched_point ∧
    sensor0_vals_point ≠ sensor0_touched_point ∧
    sensor1_vals_point ≠ sensor0_touched_point ∧
    sensor0_vals_point ≠ sensor1_touched_point ∧
    sensor1_vals_point ≠ sensor1_touched_point := by
  decide

/-- The touched calls of one controller in one cycle. -/
theorem samplingCycle_touched_calls (second : Bool) (s : LoopState) (i : CycleInput)
    (hup : s.link.client.up = true) (hp : i.probesSucceed = true)
    (hT0 : i.sendT0.keepsLink = true) (hT1 : i.sendT1.keepsLink = true) :
    publishCallsOf (touchedPointOf second) (samplingCycle s i).2
      = (if touchedOf second i % 65536 ≠ lastTouchedOf second s
          then [(touchedPointOf second, DSERV_SHORT, 2, leBytes 2 (touchedOf second i % 65536))]
          else []) := by
  obtain ⟨n10, n20, n30, n21, n31⟩ := touched_points_ne
  unfold publishCallsOf
  rw [(samplingCycle_of_up s i hup hp hT0 hT1).1]
  cases second
  · simp only [touchedPointOf, touchedOf, lastTouchedOf, Bool.false_eq_true, if_false]
    by_cases h0 : i.touched0 % 65536 ≠ s.last_touched0 <;>
      by_cases h1 : i.touched1 % 65536 ≠ s.last_touched1 <;>
      simp [h0, h1, n10, n20, n30, List.filter]
  · simp only [touchedPointOf, touchedOf, lastTouchedOf, if_true]
    by_cases h0 : i.touched0 % 65536 ≠ s.last_touched0 <;>
      by_cases h1 : i.touched1 % 65536 ≠ s.last_touched1 <;>
      simp [h0, h1, n10.symm, n21, n31, List.filter]

theorem publishCallsOf_append (point : List Nat) (a b : List Event) :
    publishCallsOf point (a ++ b) = publishCallsOf point a ++ publishCallsOf point b := by
  unfold publishCallsOf
  rw [publishCalls_append, List.filter_append]

theorem lastTouchedOf_samplingCycle (second : Bool) (s : LoopState) (i : CycleInput)
    (hup : s.link.client.up = true) (hp : i.probesSucceed = true)
    (hT0 : i.sendT0.keepsLink = true) (hT1 : i.sendT1.keepsLink = true) :
    lastTouchedOf second (samplingCycle s i).1 = touchedOf second i % 65536 := by
  obtain ⟨_, h0, h1, _⟩ := samplingCycle_of_up s i hup hp hT0 hT1
  cases second
  · simpa [lastTouchedOf, touchedOf] using h0
  · simpa [lastTouchedOf, touchedOf] using h1

theorem sendsKeepLink_iff (i : CycleInput) (h : i.sendsKeepLink = true) :
    i.sendT0.keepsLink = true ∧ i.sendT1.keepsLink = true ∧
    i.sendV0.keepsLink = true ∧ i.sendV1.keepsLink = true := by
  unfold CycleInput.sendsKeepLink at h
  simp only [Bool.and_eq_true] at h
  exact ⟨h.1.1.1, h.1.1.2, h.1.2, h.2⟩

/-- The touched calls of one controller over a run of cycles with a constant
bitmap `b`: none when the last-sent bitmap is `b` (or the run is empty), one
otherwise. -/
theorem runCycles_touched_calls (second : Bool) (b : Nat) (hb : b < 65536)
    (envs : List CycleInput) :
    ∀ s : LoopState, s.link.client.up = true →
    (∀ i ∈ envs, i.probesSucceed = true ∧ i.sendsKeepLink = true ∧ touchedOf second i = b) →
    publishCallsOf (touchedPointOf second) (runCycles s envs).2
      = (if envs.length = 0 ∨ lastTouchedOf second s = b then []
          else [(touchedPointOf second, DSERV_SHORT, 2, leBytes 2 b)]) ∧
    (runCycles s envs).1.link.client.up = true ∧
    (envs ≠ [] → lastTouchedOf second (runCycles s envs).1 = b) := by
  induction envs with
  | nil =>
    intro s hup _
    exact ⟨by simp [runCycles, publishCallsOf, publishCalls], hup, fun h => absurd rfl h⟩
  | cons i rest ih =>
    intro s hup hall
    obtain ⟨hp, hk, ht⟩ := hall i (List.mem_cons_self i rest)
    obtain ⟨hT0, hT1, hV0, hV1⟩ := sendsKeepLink_iff i hk
    have hcalls := samplingCycle_touched_calls second s i hup hp hT0 hT1
    have hlast := lastTouchedOf_samplingCycle second s i hup hp hT0 hT1
    have hb' : b % 65536 = b := Nat.mod_eq_of_lt hb
    rw [ht, hb'] at hcalls hlast
    have hup' : (samplingCycle s i).1.link.client.up = true := by
      rw [(samplingCycle_of_up s i hup hp hT0 hT1).2.2.2 hV0 hV1]; exact hup
    obtain ⟨r1, r2, r3⟩ := ih (samplingCycle s i).1 hup'
      (fun j hj => hall j (List.mem_cons_of_mem i hj))
    have hrest : publishCallsOf (touchedPointOf second)
        (runCycles (samplingCycle s i).1 rest).2 = [] := by
      rw [r1]; simp [hlast]
    refine ⟨?_, r2, fun _ => ?_⟩
    · show publishCallsOf (touchedPointOf second)
        ((samplingCycle s i).2 ++ (runCycles (samplingCycle s i).1 rest).2) = _
      rw [publishCallsOf_append, hrest, hcalls, List.append_nil]
      by_cases hl : lastTouchedOf second s = b
      · simp [hl]
      · have hl' : b ≠ lastTouchedOf second s := fun h => hl h.symm
        simp [hl, hl']
    · by_cases hr : rest = []
      · subst hr
        exact hlast
      · exact r3 hr

/-- C6 (counterexample): at the start of a run on a Connected link, two
consecutive cycles in which controller 0 reports `touched = 0x0000`, with every
probe and every send succeeding, publish no touched record for controller 0
(not one): the last-sent bitmap starts at 0. -/
theorem touched_zero_at_start_not_published :
    sampleStart.link.client.up = true ∧
    (∀ i ∈ [steadyCycle 0 0, steadyCycle 0 0],
      i.probesSucceed = true ∧ i.sendsKeepLink = true ∧ touchedOf false i = 0) ∧
    publishCallsOf sensor0_touched_point
      (runCycles sampleStart [steadyCycle 0 0, steadyCycle 0 0]).2 = [] ∧
    (publishCallsOf sensor0_touched_point
      (runCycles sampleStart [steadyCycle 0 0, steadyCycle 0 0]).2).length ≠ 1 := by
  have hall : ∀ i ∈ [steadyCycle 0 0, steadyCycle 0 0],
      i.probesSucceed = true ∧ i.sendsKeepLink = true ∧ touchedOf false i = 0 := by
    intro i hi
    simp only [List.mem_cons, List.mem_singleton, List.not_mem_nil, or_false, or_self] at hi
    subst hi
    decide
  have h := (runCycles_touched_calls false 0 (by decide) [steadyCycle 0 0, steadyCycle 0 0]
    sampleStart (by decide) hall).1
  have h0 : publishCallsOf sensor0_touched_point
      (runCycles sampleStart [steadyCycle 0 0, steadyCycle 0 0]).2 = [] := by
    rw [show sensor0_touched_point = touchedPointOf false from rfl, h]
    decide
  refine ⟨by decide, hall, h0, ?_⟩
  rw [h0]
  decide

/-- C6 (amended): if a controller's `touched()` returns the 16-bit bitmap `b` on
each of K ≥ 1 consecutive cycles while the link is Connected, every probe
succeeds and no send loses the connection, then over those cycles a touched
record is published for that controller exactly once, on the first cycle, when
`b` differs from the controller's last-sent bitmap at the start of those cycles,
and not at all when `b` equals it; the last-sent bitmap is 0 when the loop is
entered. -/
theorem touched_published_on_change_only (second : Bool) (b : Nat) (hb : b < 65536)
    (envs : List CycleInput) (s : LoopState) (hK : 1 ≤ envs.length)
    (hup : s.link.client.up = true)
    (hall : ∀ i ∈ envs,
      i.probesSucceed = true ∧ i.sendsKeepLink = true ∧ touchedOf second i = b) :
    publishCallsOf (touchedPointOf second) (runCycles s envs).2
      = (if lastTouchedOf second s = b then []
          else [(touchedPointOf second, DSERV_SHORT, 2, leBytes 2 b)]) ∧
    publishCallsOf (touchedPointOf second) (runCycles s (envs.take 1)).2
      = (if lastTouchedOf second s = b then []
          else [(touchedPointOf second, DSERV_SHORT, 2, leBytes 2 b)]) ∧
    publishCallsOf (touchedPointOf second)
      (runCycles (runCycles s (envs.take 1)).1 (envs.drop 1)).2 = [] ∧
    lastTouchedOf second (LoopState.initial s.link) = 0 := by
  have hne : ¬ envs.length = 0 := by omega
  have h1len : (envs.take 1).length = 1 := by
    rw [List.length_take]; omega
  obtain ⟨a1, _, _⟩ := runCycles_touched_calls second b hb envs s hup hall
  obtain ⟨b1, b2, b3⟩ := runCycles_touched_calls second b hb (envs.take 1) s hup
    (fun i hi => hall i (List.mem_of_mem_take hi))
  have hne1 : envs.take 1 ≠ [] := by
    intro h
    rw [h] at h1len
    simp at h1len
  obtain ⟨c1, _, _⟩ := runCycles_touched_calls second b hb (envs.drop 1)
    (runCycles s (envs.take 1)).1 b2 (fun i hi => hall i (List.mem_of_mem_drop hi))
  refine ⟨?_, ?_, ?_, ?_⟩
  · rw [a1]; simp only [hne, false_or]
  · rw [b1, h1len]; simp
  · rw [c1, b3 hne1]; simp
  · cases second <;> rfl

theorem touched_published_on_change_only_witness :
    (5 : Nat) < 65536 ∧ 1 ≤ [steadyCycle 5 0, steadyCycle 5 0].length ∧
    sampleStart.link.client.up = true ∧
    (∀ i ∈ [steadyCycle 5 0, steadyCycle 5 0],
      i.probesSucceed = true ∧ i.sendsKeepLink = true ∧ touchedOf false i = 5) ∧
    publishCallsOf sensor0_touched_point
      (runCycles sampleStart [steadyCycle 5 0, steadyCycle 5 0]).2
      = [(sensor0_touched_point, 4, 2, [5, 0])] := by
  have hall : ∀ i ∈ [steadyCycle 5 0, steadyCycle 5 0],
      i.probesSucceed = true ∧ i.sendsKeepLink = true ∧ touchedOf false i = 5 := by
    intro i hi
    simp only [List.mem_cons, List.mem_singleton, List.not_mem_nil, or_false, or_self] at hi
    subst hi
    decide
  exact ⟨by decide, by decide, by decide, hall,
    (touched_published_on_change_only false 5 (by decide) [steadyCycle 5 0, steadyCycle 5 0]
      sampleStart (by decide) (by decide) hall).1.trans (by decide)⟩

/-! ## Register reads of the driver -/

theorem shift_or_eq_add (hi lo : Nat) (hlo : lo < 256) : (hi <<< 8) ||| lo = lo + 256 * hi := by
  have h := Nat.mul_add_lt_is_or (i := 8) (b := lo) (by omega) hi
  rw [Nat.shiftLeft_eq, Nat.mul_comm hi (2 ^ 8), ← h]
  omega

/-- The byte `readRegister8` returns: the byte delivered when the address
write and the read both succeed, 0 otherwise. -/
theorem readRegister8_value (env : I2cEnv) (dev : MPR121) (bus : I2c) (reg : Nat) :
    (readRegister8 env dev bus reg).1
      = (if env.writeRet bus.nwrites = 1 ∧ (env.readRet bus.nreads).1 = 1
          then (env.readRet bus.nreads).2.headD 0 % 256 else 0) := by
  unfold readRegister8
  by_cases hw : env.writeRet bus.nwrites = 1
  · by_cases hr : (env.readRet bus.nreads).1 = 1 <;> simp [hw, hr]
  · simp [hw]

theorem readRegister8_lt (env : I2cEnv) (dev : MPR121) (bus : I2c) (reg : Nat) :
    (readRegister8 env dev bus reg).1 < 256 := by
  rw [readRegister8_value]
  split
  · exact Nat.mod_lt _ (by decide)
  · decide

theorem readRegister8_nwrites (env : I2cEnv) (dev : MPR121) (bus : I2c) (reg : Nat) :
    (readRegister8 env dev bus reg).2.nwrites = bus.nwrites + 1 := by
  unfold readRegister8
  by_cases hw : env.writeRet bus.nwrites = 1
  · by_cases hr : (env.readRet bus.nreads).1 = 1 <;> simp [hw, hr]
  · simp [hw]

/-- The value of `touched` in terms of the two register bytes. -/
theorem touched_value (env : I2cEnv) (dev : MPR121) (bus : I2c) :
    (touched env dev bus).1
      = (readRegister8 env dev bus 0x00).1
        + 256 * (readRegister8 env dev (readRegister8 env dev bus 0x00).2 0x01).1 := by
  have hlo := readRegister8_lt env dev bus 0x00
  have hhi := readRegister8_lt env dev (readRegister8 env dev bus 0x00).2 0x01
  unfold touched
  simp only [MPR121_TOUCHSTATUS_L, MPR121_TOUCHSTATUS_H]
  rw [shift_or_eq_add _ _ hlo]
  omega

/-- C11: `touched()` reads register 0x00 and then register 0x01 and returns
low + 256 * high, where low and high are the bytes read from 0x00 and 0x01 and
a byte whose address write or read fails is taken as 0; the result is a 16-bit
value whose low 8 bits are the first register and whose high 8 bits are the
second. -/
theorem touched_composes_low_high (env : I2cEnv) (dev : MPR121) (bus : I2c) :
    (touched env dev bus).1
      = (readRegister8 env dev bus 0x00).1
        + 256 * (readRegister8 env dev (readRegister8 env dev bus 0x00).2 0x01).1 ∧
    (touched env dev bus).1 < 65536 ∧
    (touched env dev bus).1 % 256 = (readRegister8 env dev bus 0x00).1 ∧
    (touched env dev bus).1 / 256
      = (readRegister8 env dev (readRegister8 env dev bus 0x00).2 0x01).1 ∧
    (∀ (b : I2c) (reg : Nat), (readRegister8 env dev b reg).1
      = (if env.writeRet b.nwrites = 1 ∧ (env.readRet b.nreads).1 = 1
          then (env.readRet b.nreads).2.headD 0 % 256 else 0)) ∧
    (touched env dev bus).2.trace
      = bus.trace ++ [BusOp.write dev.i2c_fd [0x00]] ++
        (if env.writeRet bus.nwrites = 1 then [BusOp.read dev.i2c_fd 1] else []) ++
        [BusOp.write dev.i2c_fd [0x01]] ++
        (if env.writeRet (bus.nwrites + 1) = 1 then [BusOp.read dev.i2c_fd 1] else []) := by
  have hlo := readRegister8_lt env dev bus 0x00
  have hhi := readRegister8_lt env dev (readRegister8 env dev bus 0x00).2 0x01
  have hv := touched_value env dev bus
  refine ⟨hv, by omega, by omega, by omega, fun b reg => readRegister8_value env dev b reg, ?_⟩
  show (readRegister8 env dev (readRegister8 env dev bus MPR121_TOUCHSTATUS_L).2
    MPR121_TOUCHSTATUS_H).2.trace = _
  rw [readRegister8_trace, readRegister8_trace, readRegister8_nwrites]
  rfl

theorem readRegister16_value (env : I2cEnv) (dev : MPR121) (bus : I2c) (reg : Nat) :
    (readRegister16 env dev bus reg).1
      = (if env.writeRet bus.nwrites = 1 ∧ (env.readRet bus.nreads).1 = 2
          then (env.readRet bus.nreads).2.getD 0 0 % 256
            + 256 * ((env.readRet bus.nreads).2.getD 1 0 % 256)
          else 0) := by
  have h0 : (env.readRet bus.nreads).2.getD 0 0 % 256 < 256 := Nat.mod_lt _ (by decide)
  have h1 : (env.readRet bus.nreads).2.getD 1 0 % 256 < 256 := Nat.mod_lt _ (by decide)
  unfold readRegister16
  by_cases hw : env.writeRet bus.nwrites = 1
  · by_cases hr : (env.readRet bus.nreads).1 = 2
    · simp only [hw, hr, ne_eq, not_true_eq_false, if_false, and_self, if_true]
      rw [shift_or_eq_add _ _ h0]
      omega
    · simp [hw, hr]
  · simp [hw]

theorem readRegister16_trace (env : I2cEnv) (dev : MPR121) (bus : I2c) (reg : Nat) :
    (readRegister16 env dev bus reg).2.trace
      = bus.trace ++ [BusOp.write dev.i2c_fd [reg % 256]] ++
        (if env.writeRet bus.nwrites = 1 then [BusOp.read dev.i2c_fd 2] else []) := by
  unfold readRegister16
  by_cases hw : env.writeRet bus.nwrites = 1
  · by_cases hr : (env.readRet bus.nreads).1 = 2 <;> simp [hw, hr]
  · simp [hw]

/-- C12 (counterexample): for k = 12, outside [0, 11], `filteredData` writes
the register address 0x1C on the bus, reads two bytes and returns their
value, here 0x1234, not 0. -/
theorem filteredData_twelve_reads_bus :
    ¬ (12 ≤ 11) ∧
    (filteredData wordEnv openedSensor freshBus 12).1 = 0x1234 ∧
    (filteredData wordEnv openedSensor freshBus 12).1 ≠ 0 ∧
    (filteredData wordEnv openedSensor freshBus 12).2.trace
      = [BusOp.write 4 [0x1C], BusOp.read 4 2] ∧
    (filteredData wordEnv openedSensor freshBus 12).2 ≠ freshBus := by
  have ht : (filteredData wordEnv openedSensor freshBus 12).2.trace
      = [BusOp.write 4 [0x1C], BusOp.read 4 2] := by
    show (readRegister16 wordEnv openedSensor freshBus (MPR121_FILTDATA_0L + 12 % 256 * 2)).2.trace
      = _
    rw [readRegister16_trace]
    decide
  have hv : (filteredData wordEnv openedSensor freshBus 12).1 = 0x1234 := by
    show (readRegister16 wordEnv openedSensor freshBus (MPR121_FILTDATA_0L + 12 % 256 * 2)).1 = _
    rw [readRegister16_value]
    decide
  refine ⟨by decide, hv, by rw [hv]; decide, ht, ?_⟩
  intro h
  rw [h] at ht
  exact absurd ht (by decide)

/-- C12 (amended): `filteredData(k)` issues a bus transaction exactly when
k is in [0, 12]: for every such k it writes the register address 0x04 + 2k
and, when that write succeeds, reads two bytes, and it returns
first + 256 * second (low byte first) when both calls succeed and 0 when one
fails; for every k in [13, 255] it returns 0 without issuing any bus
transaction. -/
theorem filteredData_reads_up_to_twelve (env : I2cEnv) (dev : MPR121) (bus : I2c) (k : Nat) :
    (k ≤ 12 →
      (filteredData env dev bus k).2.trace
        = bus.trace ++ [BusOp.write dev.i2c_fd [0x04 + 2 * k]] ++
          (if env.writeRet bus.nwrites = 1 then [BusOp.read dev.i2c_fd 2] else []) ∧
      (filteredData env dev bus k).1
        = (if env.writeRet bus.nwrites = 1 ∧ (env.readRet bus.nreads).1 = 2
            then (env.readRet bus.nreads).2.getD 0 0 % 256
              + 256 * ((env.readRet bus.nreads).2.getD 1 0 % 256)
            else 0)) ∧
    (12 < k → k < 256 → filteredData env dev bus k = (0, bus)) := by
  refine ⟨fun hk => ?_, fun hk hk2 => ?_⟩
  · have hmod : k % 256 = k := Nat.mod_eq_of_lt (by omega)
    have hle : ¬ k > 12 := by omega
    have he : filteredData env dev bus k
        = readRegister16 env dev bus (MPR121_FILTDATA_0L + k * 2) := by
      unfold filteredData
      simp only [hmod, hle, if_false]
    rw [he, readRegister16_trace, readRegister16_value]
    have hreg : (MPR121_FILTDATA_0L + k * 2) % 256 = 0x04 + 2 * k := by
      unfold MPR121_FILTDATA_0L
      omega
    rw [hreg]
    exact ⟨rfl, rfl⟩
  · have hmod : k % 256 = k := Nat.mod_eq_of_lt hk2
    unfold filteredData
    simp only [hmod, gt_iff_lt, hk, if_true]

theorem filteredData_reads_up_to_twelve_witness :
    (12 ≤ 12) ∧ (12 < 13) ∧ (13 < 256) ∧
    (filteredData wordEnv openedSensor freshBus 12).1
      = (if wordEnv.writeRet freshBus.nwrites = 1 ∧ (wordEnv.readRet freshBus.nreads).1 = 2
            then (wordEnv.readRet freshBus.nreads).2.getD 0 0 % 256
              + 256 * ((wordEnv.readRet freshBus.nreads).2.getD 1 0 % 256)
            else 0) ∧
    filteredData wordEnv openedSensor freshBus 13 = (0, freshBus) :=
  ⟨by decide, by decide, by decide,
    ((filteredData_reads_up_to_twelve wordEnv openedSensor freshBus 12).1 (by decide)).2,
    (filteredData_reads_up_to_twelve wordEnv openedSensor freshBus 13).2 (by decide)
      (by decide)⟩

/-! ## Link lifecycle -/

theorem connect_of_connected (env : ConnectEnv) (c : DataserverClient)
    (hc : c.connected = true) : connect env c = (true, c, []) := by
  unfold connect
  simp [hc]

theorem connectRepeated_of_connected (envs : List ConnectEnv) (c : DataserverClient)
    (hc : c.connected = true) :
    connectRepeated c envs = (List.replicate envs.length true, c, []) := by
  induction envs with
  | nil => rfl
  | cons e rest ih =>
    unfold connectRepeated
    simp only [connect_of_connected e c hc, ih, List.nil_append, List.length_cons,
      List.replicate_succ]

theorem disconnect_of_shut_down (c : DataserverClient) (hfd : c.sockfd < 0)
    (hc : c.connected = false) : disconnect c = (c, []) := by
  unfold disconnect
  rw [if_neg (by omega)]
  cases c
  simp_all

theorem disconnect_shuts_down (c : DataserverClient) :
    (disconnect c).1.sockfd < 0 ∧ (disconnect c).1.connected = false := by
  unfold disconnect
  by_cases h : 0 ≤ c.sockfd
  · simp [h]
  · simp only [h, if_false, and_true]
    omega

/-- C13: `connect()` on a link that is already Connected returns success,
issues no network call and leaves the client unchanged, however many times it
is repeated; `disconnect()` on a link that is already shut down (handle below
0, flag clear) issues no close and leaves the client unchanged, so a second
`disconnect` after a first one changes nothing and closes nothing: the two
calls together close exactly what the first one closes, at most one
descriptor. -/
theorem connect_disconnect_idempotent :
    (∀ (env : ConnectEnv) (c : DataserverClient), c.connected = true →
      connect env c = (true, c, [])) ∧
    (∀ (envs : List ConnectEnv) (c : DataserverClient), c.connected = true →
      connectRepeated c envs = (List.replicate envs.length true, c, [])) ∧
    (∀ c : DataserverClient, c.sockfd < 0 → c.connected = false →
      disconnect c = (c, [])) ∧
    (∀ c : DataserverClient,
      disconnect (disconnect c).1 = ((disconnect c).1, []) ∧
      (disconnect c).2 ++ (disconnect (disconnect c).1).2 = (disconnect c).2 ∧
      ((disconnect c).2 ++ (disconnect (disconnect c).1).2).length ≤ 1) := by
  refine ⟨connect_of_connected, connectRepeated_of_connected, disconnect_of_shut_down,
    fun c => ?_⟩
  have h := disconnect_of_shut_down (disconnect c).1 (disconnect_shuts_down c).1
    (disconnect_shuts_down c).2
  refine ⟨h, by rw [h, List.append_nil], ?_⟩
  rw [h, List.append_nil]
  unfold disconnect
  split <;> simp

theorem connect_disconnect_idempotent_witness :
    sampleClient.connected = true ∧
    connect reachableEnv sampleClient = (true, sampleClient, []) ∧
    connectRepeated sampleClient [reachableEnv, reachableEnv, reachableEnv]
      = ([true, true, true], sampleClient, []) ∧
    (DataserverClient.new "192.168.88.40" 4620).sockfd < 0 ∧
    (DataserverClient.new "192.168.88.40" 4620).connected = false ∧
    disconnect (DataserverClient.new "192.168.88.40" 4620)
      = (DataserverClient.new "192.168.88.40" 4620, []) ∧
    disconnect (disconnect sampleClient).1 = ((disconnect sampleClient).1, []) :=
  ⟨rfl, connect_disconnect_idempotent.1 reachableEnv sampleClient rfl,
    connect_disconnect_idempotent.2.1 [reachableEnv, reachableEnv, reachableEnv] sampleClient
      rfl,
    by decide, rfl,
    connect_disconnect_idempotent.2.2.1 (DataserverClient.new "192.168.88.40" 4620)
      (by decide) rfl,
    (connect_disconnect_idempotent.2.2.2 sampleClient).1⟩

end MPR121Forwarder
